import Mathlib

/-!
# Verification of the euroscope2mcp streaming FSD pipeline

A shallow embedding, in Lean 4, of the core of the euroscope2mcp repository:

* the FSD protocol decoder (`src/parser/parsers/fsd-parser.js`, the
  batching-aware variant, together with the helpers of `base-parser.js`),
* the distribution bus (`event-pipeline.js`),
* the capture multiplexer (`capture-manager.js`, backed by `tshark-capture.js`),
* the parser registry (`parser-registry.js`).

Message text is modelled as `List Char`; type tags and map keys as `String`.
JavaScript numbers are modelled as `Int` where the code produces integers and
as `Rat` where it produces floats (no claim below depends on IEEE rounding).
JavaScript runtime builtins used by the code (`parseInt`, `parseFloat`,
`JSON.parse`, `String.prototype.trim`, number formatting) are modelled by
executable Lean functions, each marked in its doc comment.

All definitions are executable; theorems about them follow at the end of the
file.
-/

namespace E2M

/-! ## JS string/number builtins (modelled) -/

/-- Modelled from the spec: the whitespace class used by JS `String.trim`
and `parseInt`/`parseFloat` (space, tab, LF, CR, VT, FF, NBSP). -/
def jsWhitespace (c : Char) : Bool :=
  c = ' ' || c = '\t' || c = '\n' || c = '\r' || c = '\x0b' || c = '\x0c' || c = '\xa0'

/-- `m.trim().length > 0`: the fragment has at least one non-whitespace
character.  Used by the decoder's batch-fragment filter. -/
def hasNonWs (s : List Char) : Bool :=
  s.any (fun c => !(jsWhitespace c))

/-- Numeric value of a list of decimal digit characters. -/
def digitsToNat (ds : List Char) : Nat :=
  ds.foldl (fun acc c => 10 * acc + (c.toNat - '0'.toNat)) 0

/-- Modelled from the spec: the JS builtin `parseInt(value, 10)`.  Skips
leading whitespace, reads an optional sign and a maximal run of decimal
digits; `none` models the `NaN` result when no digit is found. -/
def jsParseInt (s : List Char) : Option Int :=
  let s1 := s.dropWhile jsWhitespace
  let signAndRest : Int × List Char :=
    match s1 with
    | '-' :: r => (-1, r)
    | '+' :: r => (1, r)
    | _ => (1, s1)
  let digits := signAndRest.2.takeWhile Char.isDigit
  if digits.isEmpty then none
  else some (signAndRest.1 * (digitsToNat digits : Int))

/-- Modelled from the spec: the JS builtin `parseFloat`.  Skips leading
whitespace, then reads sign, integer part, optional fractional part and
optional exponent; `none` models `NaN` (no digit found; the non-finite
`Infinity` literal is also modelled as a failure — no claim depends on it).
The value is returned exactly as a rational rather than rounded to a
double. -/
def jsParseFloat (s : List Char) : Option Rat :=
  let s1 := s.dropWhile jsWhitespace
  let signAndRest : Rat × List Char :=
    match s1 with
    | '-' :: r => (-1, r)
    | '+' :: r => (1, r)
    | _ => (1, s1)
  let s2 := signAndRest.2
  let ipart := s2.takeWhile Char.isDigit
  let s3 := s2.dropWhile Char.isDigit
  let fracAndRest : List Char × List Char :=
    match s3 with
    | '.' :: r => (r.takeWhile Char.isDigit, r.dropWhile Char.isDigit)
    | _ => ([], s3)
  let fpart := fracAndRest.1
  if ipart.isEmpty && fpart.isEmpty then none
  else
    let mantissa : Rat :=
      (digitsToNat ipart : Rat) + (digitsToNat fpart : Rat) / (10 : Rat) ^ fpart.length
    let exp : Int :=
      match fracAndRest.2 with
      | 'e' :: r | 'E' :: r =>
        let esAndRest : Int × List Char :=
          match r with
          | '-' :: rr => (-1, rr)
          | '+' :: rr => (1, rr)
          | _ => (1, r)
        let ed := esAndRest.2.takeWhile Char.isDigit
        if ed.isEmpty then 0 else esAndRest.1 * (digitsToNat ed : Int)
      | _ => 0
    some (signAndRest.1 * mantissa * (10 : Rat) ^ exp)

/-! ## base-parser.js helpers -/

/-- `parseIntField(value, defaultValue = 0)` from `base-parser.js`:
`parseInt` with fallback to the caller-supplied default on `NaN`. -/
def parseIntField (value : List Char) (defaultValue : Int := 0) : Int :=
  (jsParseInt value).getD defaultValue

/-- `parseFloatField(value, defaultValue = 0)` from `base-parser.js`:
`parseFloat` with fallback to the caller-supplied default on `NaN`. -/
def parseFloatField (value : List Char) (defaultValue : Rat := 0) : Rat :=
  (jsParseFloat value).getD defaultValue

/-- Prepend a character to the first fragment of a split result
(auxiliary for the two split functions below). -/
def consHead (c : Char) : List (List Char) → List (List Char)
  | [] => [[c]]
  | f :: fs => (c :: f) :: fs

/-- `splitMessage(message)` from `base-parser.js` with the default `':'`
delimiter: JS `message.split(':')`. -/
def splitMessage (s : List Char) : List (List Char) :=
  match s with
  | [] => [[]]
  | c :: rest => if c = ':' then [] :: splitMessage rest else consHead c (splitMessage rest)

/-- The literal escaped line-ending marker `'\\r\\n'` (four characters:
backslash, `r`, backslash, `n`) on which `fsd-parser.js` splits batched
lines. -/
def marker : List Char := ['\\', 'r', '\\', 'n']

/-- JS `message.split('\\r\\n')`: split on each leftmost, non-overlapping
occurrence of the four-character escaped-CRLF marker. -/
def splitMarker (s : List Char) : List (List Char) :=
  if marker.isPrefixOf s then
    match s with
    | _ :: _ :: _ :: _ :: rest => [] :: splitMarker rest
    | _ => [[]]
  else
    match s with
    | [] => [[]]
    | c :: rest => consHead c (splitMarker rest)

/-- Whether the marker occurs anywhere in `s`. -/
def containsMarker (s : List Char) : Bool :=
  match s with
  | [] => false
  | c :: rest => marker.isPrefixOf (c :: rest) || containsMarker rest

/-- JS `Array.prototype.join(':')`. -/
def joinColon (fields : List (List Char)) : List Char :=
  List.intercalate [':'] fields

/-! ## JSON values and `JSON.parse` (modelled builtin) -/

/-- JSON values, as produced by the JS builtin `JSON.parse`. -/
inductive Json where
  | null
  | bool (b : Bool)
  | num (q : Rat)
  | str (s : List Char)
  | arr (elems : List Json)
  | obj (members : List (List Char × Json))

/-- JSON whitespace (space, tab, LF, CR). -/
def skipJsonWs (s : List Char) : List Char :=
  s.dropWhile (fun c => c = ' ' || c = '\t' || c = '\n' || c = '\r')

/-- Translate a JSON escape character (the model maps the common escapes;
`\u` hex sequences are not expanded — no claim depends on them). -/
def jsonUnescape (c : Char) : Char :=
  match c with
  | 'n' => '\n'
  | 't' => '\t'
  | 'r' => '\r'
  | 'b' => '\x08'
  | 'f' => '\x0c'
  | other => other

/-- Scan the body of a JSON string after the opening quote; returns the
decoded characters and the remainder after the closing quote. -/
def jsonStringChars : Nat → List Char → Option (List Char × List Char)
  | 0, _ => none
  | _, [] => none
  | fuel + 1, c :: rest =>
    if c = '"' then some ([], rest)
    else if c = '\\' then
      match rest with
      | [] => none
      | e :: rest2 =>
        (jsonStringChars fuel rest2).map (fun p => (jsonUnescape e :: p.1, p.2))
    else (jsonStringChars fuel rest).map (fun p => (c :: p.1, p.2))

/-- Parse a JSON numeric literal, returning its exact rational value and the
remainder of the input. -/
def jsonNumber (s : List Char) : Option (Rat × List Char) :=
  let signAndRest : Rat × List Char :=
    match s with
    | '-' :: r => (-1, r)
    | _ => (1, s)
  let ip := signAndRest.2.takeWhile Char.isDigit
  let s2 := signAndRest.2.dropWhile Char.isDigit
  if ip.isEmpty then none
  else
    let fracRes : Option (List Char × List Char) :=
      match s2 with
      | '.' :: r =>
        let fp := r.takeWhile Char.isDigit
        if fp.isEmpty then none else some (fp, r.dropWhile Char.isDigit)
      | _ => some ([], s2)
    match fracRes with
    | none => none
    | some (fp, s3) =>
      let expRes : Option (Int × List Char) :=
        match s3 with
        | 'e' :: r | 'E' :: r =>
          let esAndRest : Int × List Char :=
            match r with
            | '-' :: rr => (-1, rr)
            | '+' :: rr => (1, rr)
            | _ => (1, r)
          let ed := esAndRest.2.takeWhile Char.isDigit
          if ed.isEmpty then none
          else some (esAndRest.1 * (digitsToNat ed : Int), esAndRest.2.dropWhile Char.isDigit)
        | _ => some (0, s3)
      match expRes with
      | none => none
      | some (ex, s4) =>
        some (signAndRest.1 *
          ((digitsToNat ip : Rat) + (digitsToNat fp : Rat) / (10 : Rat) ^ fp.length) *
          (10 : Rat) ^ ex, s4)

/-- Parsing mode of the fuelled JSON reader: a single value, the elements of
an array (after its first non-`]` character), or the members of an object. -/
inductive JMode where
  | value
  | arrElems
  | objMembers

/-- Output of the fuelled JSON reader, matching the three modes. -/
inductive JOut where
  | v (j : Json)
  | elems (es : List Json)
  | members (ms : List (List Char × Json))

/-- The fuelled recursive core of the `JSON.parse` model. -/
def jsonP : Nat → JMode → List Char → Option (JOut × List Char)
  | 0, _, _ => none
  | fuel + 1, .value, s =>
    match s with
    | 'n' :: 'u' :: 'l' :: 'l' :: r => some (.v .null, r)
    | 't' :: 'r' :: 'u' :: 'e' :: r => some (.v (.bool true), r)
    | 'f' :: 'a' :: 'l' :: 's' :: 'e' :: r => some (.v (.bool false), r)
    | '"' :: r => (jsonStringChars fuel r).map (fun p => (.v (.str p.1), p.2))
    | '[' :: r =>
      let r1 := skipJsonWs r
      match r1 with
      | ']' :: r2 => some (.v (.arr []), r2)
      | _ =>
        match jsonP fuel .arrElems r1 with
        | some (.elems es, r2) => some (.v (.arr es), r2)
        | _ => none
    | '\x7b' :: r =>
      let r1 := skipJsonWs r
      match r1 with
      | '\x7d' :: r2 => some (.v (.obj []), r2)
      | _ =>
        match jsonP fuel .objMembers r1 with
        | some (.members ms, r2) => some (.v (.obj ms), r2)
        | _ => none
    | _ => (jsonNumber s).map (fun p => (.v (.num p.1), p.2))
  | fuel + 1, .arrElems, s =>
    match jsonP fuel .value s with
    | some (.v j, r) =>
      match skipJsonWs r with
      | ',' :: r2 =>
        match jsonP fuel .arrElems (skipJsonWs r2) with
        | some (.elems es, r3) => some (.elems (j :: es), r3)
        | _ => none
      | ']' :: r2 => some (.elems [j], r2)
      | _ => none
    | _ => none
  | fuel + 1, .objMembers, s =>
    match s with
    | '"' :: r =>
      match jsonStringChars fuel r with
      | some (k, r1) =>
        match skipJsonWs r1 with
        | ':' :: r2 =>
          match jsonP fuel .value (skipJsonWs r2) with
          | some (.v j, r3) =>
            match skipJsonWs r3 with
            | ',' :: r4 =>
              match jsonP fuel .objMembers (skipJsonWs r4) with
              | some (.members ms, r5) => some (.members ((k, j) :: ms), r5)
              | _ => none
            | '\x7d' :: r4 => some (.members [(k, j)], r4)
            | _ => none
          | _ => none
        | _ => none
      | none => none
    | _ => none

/-- Modelled from the spec: the JS builtin `JSON.parse`.  Returns `some`
exactly when the whole input is a valid JSON document (the model accepts the
standard grammar; `\u` escapes are kept unexpanded and leading zeros are
tolerated).  The fuel `2 * length + 4` dominates the recursion depth, which
consumes at least one character every other step. -/
def jsonParse (s : List Char) : Option Json :=
  match jsonP (2 * s.length + 4) .value (skipJsonWs s) with
  | some (.v j, r) => if skipJsonWs r = [] then some j else none
  | _ => none

/-- Member lookup on a JSON object (`undefined`, i.e. `none`, on anything
that is not an object or lacks the key). -/
def jsonGet (j : Json) (k : List Char) : Option Json :=
  match j with
  | .obj ms => ms.lookup k
  | _ => none

/-- JS truthiness of a JSON value (`null`, `false`, `0`, `""` are falsy;
arrays and objects are truthy). -/
def jsonTruthy (j : Json) : Bool :=
  match j with
  | .null => false
  | .bool b => b
  | .num q => !(q = 0 : Bool)
  | .str s => !s.isEmpty
  | .arr _ => true
  | .obj _ => true

/-! ## fsd-parser.js: type identification and per-type field parsing -/

/-- `identifyMessageType(message)` from `fsd-parser.js`: prefix tests in the
source's order. -/
def identifyMessageType (message : List Char) : String :=
  if List.isPrefixOf ['@', 'S', ':'] message then "POSITION_SLOW"
  else if List.isPrefixOf ['@', 'N', ':'] message then "POSITION_FAST"
  else if List.isPrefixOf ['$', 'F', 'P'] message then "FLIGHT_PLAN"
  else if List.isPrefixOf ['$', 'C', 'Q'] message then "CLIENT_QUERY"
  else if List.isPrefixOf ['#', 'T', 'M'] message then "TEXT_MESSAGE"
  else if List.isPrefixOf ['#', 'P', 'C'] message then "PILOT_CLIENT"
  else if List.isPrefixOf ['#', 'A', 'P'] message then "AUTH_PILOT"
  else if List.isPrefixOf ['#', 'S', 'T'] message then "POSITION_TRANSMISSION"
  else if List.isPrefixOf ['%'] message then "CONTROLLER_POSITION"
  else if List.isPrefixOf ['$', 'Z', 'C'] message then "CLIENT_ID"
  else if List.isPrefixOf ['$', 'C', 'R'] message then "CLIENT_RESPONSE"
  else if List.isPrefixOf ['$', 'Z', 'R'] message then "SERVER_RESPONSE"
  else if List.isPrefixOf ['#', 'A', 'A'] message then "AUTH_ADD"
  else if List.isPrefixOf ['#', 'D', 'A'] message then "AUTH_DELETE"
  else "UNKNOWN"

/-- The decoded fields of one (non-batched) FSD message, one constructor per
per-type field layout of `fsd-parser.js`.  The JS `from`/`to`/`message`
fields of text messages are named `sender`/`recipient`/`text` (`from` is a
Lean keyword). -/
inductive SingleFields where
  | position (callsign squawk : List Char) (rating : Int) (latitude longitude : Rat)
      (altitude groundSpeed : Int) (pbh flags : List Char)
  | flightPlan (callsign data : List Char)
  | clientQuery (callsign server queryType data : List Char) (json : Option Json)
  | textMessage (sender recipient text : List Char)
  | controllerPosition (callsign frequency : List Char) (facility visualRange rating : Int)
      (latitude longitude : Rat) (altitudeRange : Int)
  | authPilot (callsign server cid visualRange : List Char) (rating protocol : Int)
      (realName : List Char)
  | stationPosition (callsign : List Char) (latitude longitude altitudeAGL groundSpeed : Rat)
      (flags : List Char) (verticalSpeed : Rat)

/-- `parsePosition(message)`: `@S:`/`@N:` position updates, minimum 10
colon-fields. -/
def parsePosition (message : List Char) : Option SingleFields :=
  let fields := splitMessage message
  if fields.length < 10 then none
  else some (.position (fields.getD 1 []) (fields.getD 2 [])
    (parseIntField (fields.getD 3 [])) (parseFloatField (fields.getD 4 []))
    (parseFloatField (fields.getD 5 [])) (parseIntField (fields.getD 6 []))
    (parseIntField (fields.getD 7 [])) (fields.getD 8 []) (fields.getD 9 []))

/-- `parseFlightPlan(message)`: callsign is the text between index 3 and the
first colon at or after index 3 (`message.indexOf(':', 3)`); fails when no
such colon exists. -/
def parseFlightPlan (message : List Char) : Option SingleFields :=
  let rest := message.drop 3
  if rest.any (fun c => c = ':') then
    some (.flightPlan (rest.takeWhile (fun c => c != ':'))
      ((rest.dropWhile (fun c => c != ':')).drop 1))
  else none

/-- `parseClientQuery(message)`: `$CQ` queries, minimum 4 colon-fields; the
`json` field is set exactly when `JSON.parse(data)` succeeds (the JS
`try`/`catch` around it). -/
def parseClientQuery (message : List Char) : Option SingleFields :=
  let fields := splitMessage message
  if fields.length < 4 then none
  else
    let data := joinColon (fields.drop 3)
    some (.clientQuery ((fields.getD 0 []).drop 3) (fields.getD 1 [])
      (fields.getD 2 []) data (jsonParse data))

/-- `parseTextMessage(message)`: `#TM`, minimum 3 colon-fields. -/
def parseTextMessage (message : List Char) : Option SingleFields :=
  let fields := splitMessage message
  if fields.length < 3 then none
  else some (.textMessage ((fields.getD 0 []).drop 3) (fields.getD 1 [])
    (joinColon (fields.drop 2)))

/-- `parseControllerPosition(message)`: `%`, minimum 8 colon-fields. -/
def parseControllerPosition (message : List Char) : Option SingleFields :=
  let fields := splitMessage message
  if fields.length < 8 then none
  else some (.controllerPosition ((fields.getD 0 []).drop 1) (fields.getD 1 [])
    (parseIntField (fields.getD 2 [])) (parseIntField (fields.getD 3 []))
    (parseIntField (fields.getD 4 [])) (parseFloatField (fields.getD 5 []))
    (parseFloatField (fields.getD 6 [])) (parseIntField (fields.getD 7 [])))

/-- `parseAuthPilot(message)`: `#AP`, minimum 7 colon-fields (field 3 is the
skipped empty field of the wire format). -/
def parseAuthPilot (message : List Char) : Option SingleFields :=
  let fields := splitMessage message
  if fields.length < 7 then none
  else some (.authPilot ((fields.getD 0 []).drop 3) (fields.getD 1 [])
    (fields.getD 2 []) (fields.getD 4 []) (parseIntField (fields.getD 5 []))
    (parseIntField (fields.getD 6 [])) (joinColon (fields.drop 7)))

/-- `parseStationPosition(message)`: `#ST`, minimum 7 colon-fields. -/
def parseStationPosition (message : List Char) : Option SingleFields :=
  let fields := splitMessage message
  if fields.length < 7 then none
  else some (.stationPosition ((fields.getD 0 []).drop 3)
    (parseFloatField (fields.getD 1 [])) (parseFloatField (fields.getD 2 []))
    (parseFloatField (fields.getD 3 [])) (parseFloatField (fields.getD 4 []))
    (fields.getD 5 []) (parseFloatField (fields.getD 6 [])))

/-- The `switch (type)` dispatch that `parse` performs (verbatim-identical in
its single-message and batched branches): types without a `case` keep
`parsed = null`. -/
def decodeByType (type : String) (message : List Char) : Option SingleFields :=
  match type with
  | "POSITION_SLOW" | "POSITION_FAST" => parsePosition message
  | "FLIGHT_PLAN" => parseFlightPlan message
  | "CLIENT_QUERY" => parseClientQuery message
  | "TEXT_MESSAGE" => parseTextMessage message
  | "CONTROLLER_POSITION" => parseControllerPosition message
  | "AUTH_PILOT" => parseAuthPilot message
  | "POSITION_TRANSMISSION" => parseStationPosition message
  | _ => none

/-! ## fsd-parser.js: human-readable summaries

The summary strings are presentational; the number-formatting builtins of
the JS runtime (`Math.round`, `toFixed`, number-to-string coercion) are
modelled by the helpers below.  No claim inspects the rendered values. -/

/-- JS `Math.round` (half-up). -/
def mathRound (q : Rat) : Int :=
  (q + 1 / 2).floor

/-- JS number-to-string for an integer value. -/
def intToChars (n : Int) : List Char :=
  (toString n).data

/-- JS number-to-string for a natural value. -/
def natToChars (n : Nat) : List Char :=
  (toString n).data

/-- Modelled from the spec: JS number-to-string coercion for a possibly
non-integral value (non-integral rationals are rendered as `num/den`; the
decimal rendering of the JS runtime is not reproduced — presentational
only). -/
def ratToChars (q : Rat) : List Char :=
  if q.den = 1 then intToChars q.num
  else intToChars q.num ++ '/' :: natToChars q.den

/-- Left-pad a three-digit decimal rendering. -/
def pad3 (n : Nat) : List Char :=
  if n < 10 then '0' :: '0' :: natToChars n
  else if n < 100 then '0' :: natToChars n
  else natToChars n

/-- Modelled from the spec: JS `Number.prototype.toFixed(3)`. -/
def toFixed3 (q : Rat) : List Char :=
  let scaled := mathRound (q * 1000)
  let sign : List Char := if scaled < 0 then ['-'] else []
  let a := scaled.natAbs
  sign ++ natToChars (a / 1000) ++ '.' :: pad3 (a % 1000)

/-- Modelled from the spec: the JS `ToNumber` coercion of a string (as in
`alt / 100` with `alt` a string): trimmed empty input is `0`, otherwise the
whole string must be a decimal literal; `none` models `NaN` (hex forms and
a leading lone `.` are not modelled). -/
def jsToNumber (s : List Char) : Option Rat :=
  let t := ((s.dropWhile jsWhitespace).reverse.dropWhile jsWhitespace).reverse
  if t.isEmpty then some 0
  else
    match jsonNumber (match t with | '+' :: r => r | _ => t) with
    | some (q, []) => some q
    | _ => none

/-- `'' + Math.floor(alt / 100)` from the flight-plan summary (`alt` is a
string field). -/
def floorDiv100Chars (alt : List Char) : List Char :=
  match jsToNumber alt with
  | some q => intToChars (q / 100).floor
  | none => "NaN".data

/-- JS `x || fallback` on strings: the empty string is falsy. -/
def jsOrChars (v fallback : List Char) : List Char :=
  if v.isEmpty then fallback else v

/-- JS string concatenation with a possibly-`undefined` operand. -/
def jsUndef (v : Option (List Char)) : List Char :=
  v.getD "undefined".data

/-- The `facilityNames` table of the controller-position summary. -/
def facilityNames : List (List Char) :=
  ["OBS", "FSS", "DEL", "GND", "TWR", "APP", "CTR", "DEP"].map String.data

/-- JS string coercion of a JSON value (for `'flaps ' + config.flaps_pct`;
approximated for arrays/objects — presentational only). -/
def jsonToChars (j : Json) : List Char :=
  match j with
  | .str s => s
  | .num q => ratToChars q
  | .bool b => if b then "true".data else "false".data
  | .null => "null".data
  | .arr _ => "".data
  | .obj _ => "[object Object]".data

/-- The engine lines of the `ACC` aircraft-configuration summary:
`Object.keys(config.engines).forEach(...)` in member order. -/
def accEngineParts (engines : List (List Char × Json)) : List (List Char) :=
  engines.foldr (fun kv acc =>
    let eng := kv.1
    let e := kv.2
    let onPart : List (List Char) :=
      match jsonGet e "on".data with
      | some v => ["engine ".data ++ eng ++ (if jsonTruthy v then " on".data else " off".data)]
      | none => []
    let revPart : List (List Char) :=
      match jsonGet e "is_reversing".data with
      | some v => if jsonTruthy v then ["engine ".data ++ eng ++ " reversing".data] else []
      | none => []
    onPart ++ revPart ++ acc) []

/-- The `parts` list of the `ACC` summary for a truthy `json.config`. -/
def accParts (config : Json) : List (List Char) :=
  (match jsonGet config "on_ground".data with
   | some v => [if jsonTruthy v then "on ground".data else "airborne".data]
   | none => []) ++
  (match jsonGet config "flaps_pct".data with
   | some v => ["flaps ".data ++ jsonToChars v ++ "%".data]
   | none => []) ++
  (match jsonGet config "spoilers_out".data with
   | some v => [if jsonTruthy v then "spoilers out".data else "spoilers in".data]
   | none => []) ++
  (match jsonGet config "lights".data with
   | some lights =>
     if jsonTruthy lights then
       (match jsonGet lights "landing_on".data with
        | some v => ["landing lights ".data ++ (if jsonTruthy v then "on".data else "off".data)]
        | none => []) ++
       (match jsonGet lights "taxi_on".data with
        | some v => ["taxi lights ".data ++ (if jsonTruthy v then "on".data else "off".data)]
        | none => [])
     else []
   | none => []) ++
  (match jsonGet config "engines".data with
   | some (.obj engines) => accEngineParts engines
   | _ => [])

/-- `generateQueryReadable(parsed)` from `fsd-parser.js`, taking the decoded
client-query components. -/
def generateQueryReadable (callsign queryType data : List Char) (json : Option Json) :
    List Char :=
  let cs := jsOrChars callsign "?".data
  let dataParts := splitMessage data
  let target := dataParts.getD 0 []
  if queryType = "ACC".data then
    match json with
    | some j =>
      if jsonTruthy j then
        match jsonGet j "config".data with
        | some config =>
          if jsonTruthy config then
            let parts := accParts config
            cs ++ " config: ".data ++
              (if parts.length > 0 then List.intercalate ", ".data parts else "update".data)
          else cs ++ " config update".data
        | none => cs ++ " config update".data
      else cs ++ " config update".data
    | none => cs ++ " config update".data
  else if queryType = "WH".data then
    cs ++ " queries: who has ".data ++ target ++ "?".data
  else if queryType = "SC".data then
    let note := joinColon (dataParts.drop 1)
    cs ++ " sets scratch pad for ".data ++ target ++ ": \"".data ++
      jsOrChars note "(clear)".data ++ "\"".data
  else if queryType = "TA".data then
    cs ++ " assigns temp altitude to ".data ++ target ++ ": ".data ++
      (match dataParts.get? 1 with
       | some v => if v = "0".data then "cancel".data else v ++ " ft".data
       | none => "undefined ft".data)
  else if queryType = "FA".data then
    cs ++ " assigns final altitude to ".data ++ target ++ ": ".data ++
      (match dataParts.get? 1 with
       | some v => if v = "0".data then "cancel".data else v ++ " ft".data
       | none => "undefined ft".data)
  else if queryType = "IT".data then
    cs ++ " initiates radar contact with ".data ++ target
  else if queryType = "FP".data then
    cs ++ " requests flight plan for ".data ++ target
  else if queryType = "BC".data then
    cs ++ " assigns squawk ".data ++ jsUndef (dataParts.get? 1) ++ " to ".data ++ target
  else if queryType = "HT".data then
    cs ++ " hands off ".data ++ target ++ " to ".data ++ jsUndef (dataParts.get? 1)
  else if queryType = "DR".data then
    cs ++ " clears ".data ++ target ++ " direct routing".data
  else if queryType = "VT".data then
    let vtypeText :=
      match dataParts.get? 1 with
      | some v =>
        if v = "t".data then "text-only".data
        else if v = "v".data then "voice".data
        else if v = "r".data then "receive".data
        else v
      | none => "undefined".data
    cs ++ " sets ".data ++ target ++ " voice type to ".data ++ vtypeText
  else if queryType = "NEWATIS".data then
    cs ++ " broadcasts new ATIS ".data ++ target ++ ": ".data ++
      List.intercalate " ".data (dataParts.drop 1)
  else if queryType = "ATC".data then
    cs ++ " queries ATC info for ".data ++ target
  else
    cs ++ " query ".data ++ queryType ++ ": ".data ++ target

/-- The `default` branch of `generateHumanReadable`:
`type.replace(/_/g, ' ').toLowerCase()`. -/
def defaultReadable (type : String) : List Char :=
  (type.data.map (fun c => if c = '_' then ' ' else c)).map Char.toLower

/-- `generateHumanReadable(type, parsed)` from `fsd-parser.js`.  `parse`
only ever pairs a type tag with fields of the matching shape, so a
mismatched pair (unreachable from `parse`) falls to the default branch.
`Math.round` on the already-integral altitude/ground-speed position fields
is the identity. -/
def generateHumanReadable (type : String) (parsed : Option SingleFields) : List Char :=
  match parsed with
  | none => "Unable to parse message".data
  | some p =>
    match type, p with
    | "POSITION_FAST", .position cs sq _ _ _ alt gs _ _ =>
      cs ++ " at ".data ++ intToChars alt ++ "ft, ".data ++ intToChars gs ++
        "kts, squawk ".data ++ sq
    | "POSITION_SLOW", .position cs sq _ _ _ alt gs _ _ =>
      cs ++ " at ".data ++ intToChars alt ++ "ft, ".data ++ intToChars gs ++
        "kts, squawk ".data ++ sq
    | "FLIGHT_PLAN", .flightPlan cs data =>
      let fpParts := splitMessage data
      if fpParts.length ≥ 9 then
        let dep := jsOrChars (fpParts.getD 4 []) "?".data
        let dest := jsOrChars (fpParts.getD 8 []) "?".data
        let alt := jsOrChars (fpParts.getD 7 []) "?".data
        cs ++ " flight plan: ".data ++ dep ++ " to ".data ++ dest ++ " at FL".data ++
          floorDiv100Chars alt
      else cs ++ " filed flight plan".data
    | "CLIENT_QUERY", .clientQuery cs _ qt data js => generateQueryReadable cs qt data js
    | "TEXT_MESSAGE", .textMessage sender recipient text =>
      sender ++ " to ".data ++ recipient ++ ": \"".data ++ text ++ "\"".data
    | "CONTROLLER_POSITION", .controllerPosition cs freq fac _ _ _ _ _ =>
      let freqStr :=
        match jsParseFloat freq with
        | some q => toFixed3 (q / 1000 + 100)
        | none => "NaN".data
      let facName :=
        if fac < 0 then "UNK".data else facilityNames.getD fac.toNat "UNK".data
      cs ++ " (".data ++ facName ++ ") online on ".data ++ freqStr ++ " MHz".data
    | "POSITION_TRANSMISSION", .stationPosition cs _ _ altAGL gs _ _ =>
      cs ++ " station position at ".data ++ intToChars (mathRound altAGL) ++
        "m AGL, ".data ++ intToChars (mathRound gs) ++ " m/s".data
    | "AUTH_PILOT", .authPilot cs _ _ _ _ _ realName =>
      cs ++ " connected: ".data ++ jsOrChars realName "Unknown".data
    | t, _ => defaultReadable t

/-! ## fsd-parser.js: parse -/

/-- One decoded sub-message of a batched line (no `timestamp`, exactly as in
the source). -/
structure SubMessage where
  type : String
  raw : List Char
  parsed : Option SingleFields
  humanReadable : List Char

/-- The `parsed` payload of a decode result: per-type fields for a single
message, or the sub-message list plus count for a batched line. -/
inductive ParsedPayload where
  | single (fields : SingleFields)
  | batched (subMessages : List SubMessage) (count : Nat)

/-- The record returned by `parse`: type tag, original raw text, decoded
fields (or `none`), human-readable summary, and the `Date.now()` timestamp
(supplied as the `now` argument). -/
structure ParseResult where
  type : String
  raw : List Char
  parsed : Option ParsedPayload
  humanReadable : List Char
  timestamp : Nat

/-- Decoding of one fragment in the batched branch of `parse`. -/
def decodeSub (subMsg : List Char) : SubMessage :=
  let type := identifyMessageType subMsg
  let parsed := decodeByType type subMsg
  { type := type, raw := subMsg, parsed := parsed,
    humanReadable := generateHumanReadable type parsed }

/-- `parse(message)` from `fsd-parser.js` (the batching-aware variant):
split on the literal `'\\r\\n'` marker, drop fragments that are empty after
trimming, decode a lone fragment as a single message (note: the source then
parses the whole `message`, not the fragment) and otherwise wrap the decoded
fragments as a `BATCHED` composite with their count.  `now` models
`Date.now()`. -/
def parse (now : Nat) (message : List Char) : ParseResult :=
  let subMessages := (splitMarker message).filter hasNonWs
  if subMessages.length = 1 then
    let type := identifyMessageType message
    let parsed := decodeByType type message
    { type := type, raw := message, parsed := parsed.map ParsedPayload.single,
      humanReadable := generateHumanReadable type parsed, timestamp := now }
  else
    let parsedSubMessages := subMessages.map decodeSub
    { type := "BATCHED", raw := message,
      parsed := some (.batched parsedSubMessages parsedSubMessages.length),
      humanReadable := natToChars parsedSubMessages.length ++ " batched messages".data,
      timestamp := now }

/-! ## Association-list model of JS `Map` and plain-object counters

JS `Map`s preserve insertion order; `set` replaces an existing entry in
place, `delete` removes it.  Plain-object counters
(`obj[k] = (obj[k] || 0) + 1`) behave the same way for string keys. -/

/-- `Map.prototype.set`: replace in place or append. -/
def setAssoc {α β : Type _} [DecidableEq α] : List (α × β) → α → β → List (α × β)
  | [], k, v => [(k, v)]
  | (a, b) :: rest, k, v =>
    if a = k then (k, v) :: rest else (a, b) :: setAssoc rest k v

/-- `Map.prototype.delete`: remove the entry with the given key. -/
def eraseAssoc {α β : Type _} [DecidableEq α] : List (α × β) → α → List (α × β)
  | [], _ => []
  | (a, b) :: rest, k =>
    if a = k then rest else (a, b) :: eraseAssoc rest k

/-- Update the entry with the given key in place (no-op when absent). -/
def updateAssoc {α β : Type _} [DecidableEq α] : List (α × β) → α → (β → β) → List (α × β)
  | [], _, _ => []
  | (a, b) :: rest, k, f =>
    if a = k then (a, f b) :: rest else (a, b) :: updateAssoc rest k f

/-- `counters[k] = (counters[k] || 0) + 1`. -/
def bumpCount {α : Type _} [DecidableEq α] : List (α × Nat) → α → List (α × Nat)
  | [], k => [(k, 1)]
  | (a, n) :: rest, k =>
    if a = k then (a, n + 1) :: rest else (a, n) :: bumpCount rest k

/-- JS `x || fallback` where `x` is a possibly-absent string (the empty
string is falsy). -/
def jsOrString (v : Option String) (fallback : String) : String :=
  match v with
  | some t => if t = "" then fallback else t
  | none => fallback

/-- JS `String.prototype.toLowerCase` (ASCII, as used on type tags). -/
def jsToLower (s : String) : String :=
  s.map Char.toLower

/-! ## event-pipeline.js: the distribution bus

`processMessage` reads only the `type` and `port` fields of the enriched
message and passes the message value itself to every enabled output handler,
so the message is modelled by those two fields.  A handler is modelled as a
function returning `Except String Unit`: `.error` covers both a synchronous
throw and an asynchronous rejection, which the source treats identically
(`errorCount++` plus an `output-error` event).  `await Promise.allSettled`
means every enabled handler's outcome is incorporated into the state before
`processMessage` returns, which the model expresses by folding all outcomes
into the returned state; per §5 of the spec the system is single-threaded,
so settlement order only affects event interleaving, modelled here in output
registration order. -/

/-- The enriched message as consumed by the bus. -/
structure BusMessage where
  type : Option String
  port : Option Nat

/-- One registered output: handler, enabled flag and the two counters. -/
structure OutputEntry where
  handler : BusMessage → Except String Unit
  enabled : Bool
  messageCount : Nat
  errorCount : Nat

/-- The bus state: the `stats` object plus the `outputs` map. -/
structure PipelineState where
  totalMessages : Nat
  messagesByType : List (String × Nat)
  messagesByPort : List (Nat × Nat)
  startTime : Nat
  outputs : List (String × OutputEntry)

/-- Events emitted by `processMessage` (the generic `'message'` event, the
type-specific event, and per-sink `'output-error'` events). -/
inductive BusEvent where
  | message (m : BusMessage)
  | typed (name : String) (m : BusMessage)
  | outputError (output : String) (error : String) (m : BusMessage)

/-- `registerOutput(name, handler)`: overwrites silently (after a console
warning) and resets `enabled`/counters. -/
def registerOutput (s : PipelineState) (name : String)
    (handler : BusMessage → Except String Unit) : PipelineState :=
  { s with outputs := setAssoc s.outputs name ⟨handler, true, 0, 0⟩ }

/-- `unregisterOutput(name)`. -/
def unregisterOutput (s : PipelineState) (name : String) : PipelineState :=
  { s with outputs := eraseAssoc s.outputs name }

/-- `enableOutput(name)` (no-op when absent). -/
def enableOutput (s : PipelineState) (name : String) : PipelineState :=
  { s with outputs := updateAssoc s.outputs name (fun o => { o with enabled := true }) }

/-- `disableOutput(name)` (no-op when absent). -/
def disableOutput (s : PipelineState) (name : String) : PipelineState :=
  { s with outputs := updateAssoc s.outputs name (fun o => { o with enabled := false }) }

/-- The sink-invocation loop of `processMessage`: disabled outputs are
skipped; a successful handler bumps `messageCount`; a failing handler bumps
`errorCount` and contributes an `output-error` event carrying the output
name, the error and the message. -/
def runOutputs (m : BusMessage) :
    List (String × OutputEntry) → List (String × OutputEntry) × List BusEvent
  | [] => ([], [])
  | (name, o) :: rest =>
    let p := runOutputs m rest
    if o.enabled then
      match o.handler m with
      | .ok _ => ((name, { o with messageCount := o.messageCount + 1 }) :: p.1, p.2)
      | .error e =>
        ((name, { o with errorCount := o.errorCount + 1 }) :: p.1,
          .outputError name e m :: p.2)
    else ((name, o) :: p.1, p.2)

/-- `processMessage(message)` from `event-pipeline.js`: bump
`totalMessages`, `messagesByType[type || 'UNKNOWN']` and — only when
`message.port` is truthy — `messagesByPort[port]`; emit the generic and the
type-specific events; then run every enabled output. -/
def processMessage (s : PipelineState) (m : BusMessage) : PipelineState × List BusEvent :=
  let messageType := jsOrString m.type "UNKNOWN"
  let byPort :=
    match m.port with
    | some p => if p ≠ 0 then bumpCount s.messagesByPort p else s.messagesByPort
    | none => s.messagesByPort
  let res := runOutputs m s.outputs
  ({ totalMessages := s.totalMessages + 1,
     messagesByType := bumpCount s.messagesByType messageType,
     messagesByPort := byPort,
     startTime := s.startTime,
     outputs := res.1 },
   BusEvent.message m :: BusEvent.typed (jsToLower messageType) m :: res.2)

/-- The plain-data view returned by `getOutputStatus`. -/
structure OutputStatus where
  name : String
  enabled : Bool
  messageCount : Nat
  errorCount : Nat
deriving DecidableEq

/-- `getOutputStatus(name)`. -/
def getOutputStatus (s : PipelineState) (name : String) : Option OutputStatus :=
  match s.outputs.lookup name with
  | none => none
  | some o => some ⟨name, o.enabled, o.messageCount, o.errorCount⟩

/-! ## capture-manager.js: the capture multiplexer

State-relevant model: the `captures` map (per-port config, enabled flag, and
the `isCapturing` flag of the underlying `tshark-capture.js` instance) and
the `stats` map.  `throw new Error(...)` is modelled as returning the
unchanged state paired with `some` error — the source performs all checks
before any mutation, which is what makes the error cases leave the state
untouched.  Process spawning and event emission carry no further state. -/

/-- The argument of `addPort`. -/
structure PortConfig where
  port : Nat
  parser : Option String
  label : Option String
  enabled : Option Bool

/-- One entry of the `captures` map. -/
structure PortEntry where
  parser : Option String
  label : Option String
  enabled : Bool
  isCapturing : Bool
deriving DecidableEq

/-- One entry of the `stats` map. -/
structure PortStats where
  port : Nat
  label : String
  parser : Option String
  messageCount : Nat
  bytesReceived : Nat
  startTime : Option Nat
  lastMessageTime : Option Nat
deriving DecidableEq

/-- The capture-manager state. -/
structure CaptureManagerState where
  captures : List (Nat × PortEntry)
  stats : List (Nat × PortStats)
deriving DecidableEq

/-- The hard errors thrown by the capture manager (and by
`tshark-capture.js`'s `start()`), as an error taxonomy in place of the JS
`Error` message strings. -/
inductive CaptureError where
  | duplicatePort (port : Nat)
  | portNotConfigured (port : Nat)
  | portDisabled (port : Nat)
  | captureAlreadyRunning (port : Nat)
deriving DecidableEq

/-- `addPort(portConfig)` from `capture-manager.js`: throws `DuplicateChannel`
when the port is already monitored (before any mutation), otherwise creates
the capture instance and the zeroed statistics entry. -/
def addPort (s : CaptureManagerState) (cfg : PortConfig) :
    CaptureManagerState × Option CaptureError :=
  if (s.captures.lookup cfg.port).isSome then (s, some (.duplicatePort cfg.port))
  else
    ({ captures := setAssoc s.captures cfg.port
         ⟨cfg.parser, cfg.label, cfg.enabled.getD true, false⟩,
       stats := setAssoc s.stats cfg.port
         ⟨cfg.port, jsOrString cfg.label ("Port " ++ toString cfg.port), cfg.parser,
           0, 0, none, none⟩ }, none)

/-- `startPort(port)` from `capture-manager.js`: throws when the port is not
configured or disabled; `entry.capture.start()` additionally throws when the
capture is already running, and otherwise starts it (its synchronous
`'started'` event handler records the start time). -/
def startPort (s : CaptureManagerState) (port now : Nat) :
    CaptureManagerState × Option CaptureError :=
  match s.captures.lookup port with
  | none => (s, some (.portNotConfigured port))
  | some entry =>
    if !entry.enabled then (s, some (.portDisabled port))
    else if entry.isCapturing then (s, some (.captureAlreadyRunning port))
    else
      ({ captures := updateAssoc s.captures port (fun e => { e with isCapturing := true }),
         stats := updateAssoc s.stats port (fun st => { st with startTime := some now }) },
        none)

/-! ## parser-registry.js: the parser registry

A parser configuration participates in the cache key only through
`JSON.stringify(config)`, so a configuration is modelled by that serialised
string; a factory maps it to an instance of an arbitrary type `Inst`.
`instance.init()` has no effect on the registry state. -/

/-- The registry state: the `parsers` factory map and the `instances`
cache. -/
structure RegistryState (Inst : Type) where
  parsers : List (String × (String → Inst))
  instances : List (String × Inst)

/-- `register(name, parserFactory)`: overwrites silently (after a console
warning). -/
def register {Inst : Type} (s : RegistryState Inst) (name : String)
    (factory : String → Inst) : RegistryState Inst :=
  { s with parsers := setAssoc s.parsers name factory }

/-- `unregister(name)`: `parsers.delete(name); instances.delete(name)` —
note that the second delete uses the bare name, not a cache key. -/
def unregister {Inst : Type} (s : RegistryState Inst) (name : String) : RegistryState Inst :=
  { parsers := eraseAssoc s.parsers name, instances := eraseAssoc s.instances name }

/-- The instance-cache key: `` `${name}:${JSON.stringify(config)}` ``. -/
def cacheKey (name config : String) : String :=
  name ++ ":" ++ config

/-- `create(name, config)`: throws `UnknownParser` when unregistered;
returns the cached instance for an identical `(name, config)` pair, and
otherwise builds, initialises and caches a fresh one. -/
def create {Inst : Type} (s : RegistryState Inst) (name config : String) :
    Except String (Inst × RegistryState Inst) :=
  match s.parsers.lookup name with
  | none => .error ("Parser '" ++ name ++ "' not registered")
  | some factory =>
    match s.instances.lookup (cacheKey name config) with
    | some inst => .ok (inst, s)
    | none =>
      let inst := factory config
      .ok (inst, { s with instances := setAssoc s.instances (cacheKey name config) inst })

/-- `clearInstances()`: empties the instance cache. -/
def clearInstances {Inst : Type} (s : RegistryState Inst) : RegistryState Inst :=
  { s with instances := [] }

/-! ## Specification-side definitions

These definitions restate parts of the spec for comparison with the source
definitions above; they are the only definitions written from the spec's
words rather than from the source. -/

/-- Modelled from the spec: type identification that tests the prefixes in
the spec's stated priority order (`@S:`, `@N:`, `$FP`, `$CQ`, `$ZC`, `$CR`,
`$ZR`, `#TM`, `#PC`, `#AP`, `#ST`, `#AA`, `#DA`, `%`), to be compared with
the source's `identifyMessageType`, which tests `#TM` … `%` … `$ZC` … in a
different order. -/
def identifyTypeSpecOrder (message : List Char) : String :=
  if List.isPrefixOf ['@', 'S', ':'] message then "POSITION_SLOW"
  else if List.isPrefixOf ['@', 'N', ':'] message then "POSITION_FAST"
  else if List.isPrefixOf ['$', 'F', 'P'] message then "FLIGHT_PLAN"
  else if List.isPrefixOf ['$', 'C', 'Q'] message then "CLIENT_QUERY"
  else if List.isPrefixOf ['$', 'Z', 'C'] message then "CLIENT_ID"
  else if List.isPrefixOf ['$', 'C', 'R'] message then "CLIENT_RESPONSE"
  else if List.isPrefixOf ['$', 'Z', 'R'] message then "SERVER_RESPONSE"
  else if List.isPrefixOf ['#', 'T', 'M'] message then "TEXT_MESSAGE"
  else if List.isPrefixOf ['#', 'P', 'C'] message then "PILOT_CLIENT"
  else if List.isPrefixOf ['#', 'A', 'P'] message then "AUTH_PILOT"
  else if List.isPrefixOf ['#', 'S', 'T'] message then "POSITION_TRANSMISSION"
  else if List.isPrefixOf ['#', 'A', 'A'] message then "AUTH_ADD"
  else if List.isPrefixOf ['#', 'D', 'A'] message then "AUTH_DELETE"
  else if List.isPrefixOf ['%'] message then "CONTROLLER_POSITION"
  else "UNKNOWN"

/-- The 14 supported prefixes with the tags assigned to them. -/
def fsdPrefixTags : List (List Char × String) :=
  [(['@', 'S', ':'], "POSITION_SLOW"), (['@', 'N', ':'], "POSITION_FAST"),
   (['$', 'F', 'P'], "FLIGHT_PLAN"), (['$', 'C', 'Q'], "CLIENT_QUERY"),
   (['$', 'Z', 'C'], "CLIENT_ID"), (['$', 'C', 'R'], "CLIENT_RESPONSE"),
   (['$', 'Z', 'R'], "SERVER_RESPONSE"), (['#', 'T', 'M'], "TEXT_MESSAGE"),
   (['#', 'P', 'C'], "PILOT_CLIENT"), (['#', 'A', 'P'], "AUTH_PILOT"),
   (['#', 'S', 'T'], "POSITION_TRANSMISSION"), (['#', 'A', 'A'], "AUTH_ADD"),
   (['#', 'D', 'A'], "AUTH_DELETE"), (['%'], "CONTROLLER_POSITION")]

/-- Whether a single-line message passes the minimum-field check that its
identified type imposes: the per-type arity thresholds of the source's
parsers (for flight plans, the colon-at-or-after-index-3 check), and `false`
for the types the `switch` in `parse` never decodes. -/
def arityOk (m : List Char) : Bool :=
  match identifyMessageType m with
  | "POSITION_SLOW" | "POSITION_FAST" => decide (10 ≤ (splitMessage m).length)
  | "FLIGHT_PLAN" => (m.drop 3).any (fun c => c = ':')
  | "CLIENT_QUERY" => decide (4 ≤ (splitMessage m).length)
  | "TEXT_MESSAGE" => decide (3 ≤ (splitMessage m).length)
  | "CONTROLLER_POSITION" => decide (8 ≤ (splitMessage m).length)
  | "AUTH_PILOT" => decide (7 ≤ (splitMessage m).length)
  | "POSITION_TRANSMISSION" => decide (7 ≤ (splitMessage m).length)
  | _ => false

/-- The value of a counter map at a key (`0` when absent). -/
def lookupCount {α : Type _} [BEq α] (l : List (α × Nat)) (k : α) : Nat :=
  (l.lookup k).getD 0

/-! ## Concrete demonstration values

Small concrete states and handlers used by the witness theorems below. -/

/-- A sink handler that always accepts. -/
def demoOkSink : BusMessage → Except String Unit := fun _ => .ok ()

/-- A sink handler that always fails. -/
def demoBadSink : BusMessage → Except String Unit := fun _ => .error "boom"

/-- A bus with one always-succeeding and one always-failing sink. -/
def demoBusState : PipelineState :=
  ⟨0, [], [], 0, [("good", ⟨demoOkSink, true, 0, 0⟩), ("bad", ⟨demoBadSink, true, 0, 0⟩)]⟩

/-- An enriched message on channel 6809. -/
def demoBusMessage : BusMessage := ⟨some "TEXT_MESSAGE", some 6809⟩

/-- The default-configuration channel descriptor (port 6809, `fsd`). -/
def demoCapCfg : PortConfig := ⟨6809, some "fsd", some "VATSIM FSD", none⟩

/-- An empty capture manager. -/
def demoCap0 : CaptureManagerState := ⟨[], []⟩

/-- The manager after adding port 6809. -/
def demoCap1 : CaptureManagerState := (addPort demoCap0 demoCapCfg).1

/-- The manager after additionally starting port 6809. -/
def demoCap2 : CaptureManagerState := (startPort demoCap1 6809 5).1

/-! ## Supporting lemmas -/

theorem exists_append_of_isPrefixOf {p m : List Char} (h : List.isPrefixOf p m = true) :
    ∃ t, m = p ++ t := by
  obtain ⟨t, ht⟩ := List.isPrefixOf_iff_prefix.mp h
  exact ⟨t, ht.symm⟩

/-- A prefix of `fsdPrefixTags` pins both type-identification functions to
its tag. -/
theorem identify_tag (pt : List Char × String) (hpt : pt ∈ fsdPrefixTags) (m : List Char)
    (h : List.isPrefixOf pt.1 m = true) :
    identifyMessageType m = pt.2 ∧ identifyTypeSpecOrder m = pt.2 := by
  fin_cases hpt <;>
    · obtain ⟨t, rfl⟩ := exists_append_of_isPrefixOf h
      simp [identifyMessageType, identifyTypeSpecOrder, List.isPrefixOf]

/-- When no supported prefix matches, both type-identification functions
return `"UNKNOWN"`. -/
theorem identify_all_false (m : List Char)
    (hall : ∀ pt ∈ fsdPrefixTags, List.isPrefixOf pt.1 m = false) :
    identifyMessageType m = "UNKNOWN" ∧ identifyTypeSpecOrder m = "UNKNOWN" := by
  have h1 := hall (['@', 'S', ':'], "POSITION_SLOW") (by simp [fsdPrefixTags])
  have h2 := hall (['@', 'N', ':'], "POSITION_FAST") (by simp [fsdPrefixTags])
  have h3 := hall (['$', 'F', 'P'], "FLIGHT_PLAN") (by simp [fsdPrefixTags])
  have h4 := hall (['$', 'C', 'Q'], "CLIENT_QUERY") (by simp [fsdPrefixTags])
  have h5 := hall (['$', 'Z', 'C'], "CLIENT_ID") (by simp [fsdPrefixTags])
  have h6 := hall (['$', 'C', 'R'], "CLIENT_RESPONSE") (by simp [fsdPrefixTags])
  have h7 := hall (['$', 'Z', 'R'], "SERVER_RESPONSE") (by simp [fsdPrefixTags])
  have h8 := hall (['#', 'T', 'M'], "TEXT_MESSAGE") (by simp [fsdPrefixTags])
  have h9 := hall (['#', 'P', 'C'], "PILOT_CLIENT") (by simp [fsdPrefixTags])
  have h10 := hall (['#', 'A', 'P'], "AUTH_PILOT") (by simp [fsdPrefixTags])
  have h11 := hall (['#', 'S', 'T'], "POSITION_TRANSMISSION") (by simp [fsdPrefixTags])
  have h12 := hall (['#', 'A', 'A'], "AUTH_ADD") (by simp [fsdPrefixTags])
  have h13 := hall (['#', 'D', 'A'], "AUTH_DELETE") (by simp [fsdPrefixTags])
  have h14 := hall (['%'], "CONTROLLER_POSITION") (by simp [fsdPrefixTags])
  constructor <;>
    simp [identifyMessageType, identifyTypeSpecOrder, h1, h2, h3, h4, h5, h6, h7, h8,
      h9, h10, h11, h12, h13, h14]

/-- The marker is not a prefix of `a ++ marker ++ b` when the nonempty `a`
contains no marker occurrence: the marker has no self-overlap, so no
occurrence can straddle the boundary. -/
theorem notPrefix_marker_append {a : List Char} (b : List Char)
    (ha : containsMarker a = false) (hne : a ≠ []) :
    List.isPrefixOf marker (a ++ (marker ++ b)) = false := by
  rcases a with _ | ⟨c0, _ | ⟨c1, _ | ⟨c2, _ | ⟨c3, rest⟩⟩⟩⟩
  · exact absurd rfl hne
  · by_contra h
    simp only [Bool.not_eq_false] at h
    obtain ⟨t, ht⟩ := exists_append_of_isPrefixOf h
    simp [marker] at ht
  · by_contra h
    simp only [Bool.not_eq_false] at h
    obtain ⟨t, ht⟩ := exists_append_of_isPrefixOf h
    simp [marker] at ht
  · by_contra h
    simp only [Bool.not_eq_false] at h
    obtain ⟨t, ht⟩ := exists_append_of_isPrefixOf h
    simp [marker] at ht
  · by_contra h
    simp only [Bool.not_eq_false] at h
    simp only [List.cons_append, marker, List.isPrefixOf, Bool.and_eq_true, beq_iff_eq] at h
    obtain ⟨e0, e1, e2, e3, -⟩ := h
    subst e0; subst e1; subst e2; subst e3
    simp [containsMarker, marker, List.isPrefixOf] at ha

theorem splitMarker_cons_of_marker_not_head {c : Char} {rest : List Char}
    (h : List.isPrefixOf marker (c :: rest) = false) :
    splitMarker (c :: rest) = consHead c (splitMarker rest) := by
  rw [splitMarker.eq_def, if_neg (by rw [h]; exact Bool.false_ne_true)]

theorem splitMarker_marker (b : List Char) :
    splitMarker (marker ++ b) = [] :: splitMarker b := by
  rw [splitMarker.eq_def,
    if_pos (List.isPrefixOf_iff_prefix.mpr (List.prefix_append _ _))]
  rfl

/-- A line without the marker is a single fragment. -/
theorem splitMarker_of_not_contains {s : List Char} (hs : containsMarker s = false) :
    splitMarker s = [s] := by
  induction s with
  | nil => rfl
  | cons c rest ih =>
    rw [containsMarker, Bool.or_eq_false_iff] at hs
    rw [splitMarker_cons_of_marker_not_head hs.1, ih hs.2]
    rfl

/-- Splitting strips the leftmost marker when the first fragment contains
none. -/
theorem splitMarker_append (a b : List Char) (ha : containsMarker a = false) :
    splitMarker (a ++ (marker ++ b)) = a :: splitMarker b := by
  induction a with
  | nil =>
    rw [List.nil_append, splitMarker_marker]
  | cons c a' ih =>
    rw [containsMarker, Bool.or_eq_false_iff] at ha
    have hpre : List.isPrefixOf marker (c :: (a' ++ (marker ++ b))) = false := by
      have := notPrefix_marker_append (a := c :: a') b (by
        rw [containsMarker, Bool.or_eq_false_iff]; exact ha) (by simp)
      simpa using this
    rw [List.cons_append, splitMarker_cons_of_marker_not_head hpre, ih ha.2]
    rfl

/-- On a marker-free line with a non-whitespace character, `parse` takes its
single-message branch. -/
theorem parse_single (now : Nat) (m : List Char) (hm : containsMarker m = false)
    (hws : hasNonWs m = true) :
    parse now m =
      { type := identifyMessageType m, raw := m,
        parsed := (decodeByType (identifyMessageType m) m).map ParsedPayload.single,
        humanReadable :=
          generateHumanReadable (identifyMessageType m)
            (decodeByType (identifyMessageType m) m),
        timestamp := now } := by
  unfold parse
  rw [splitMarker_of_not_contains hm]
  simp [List.filter, hws]

/-! ## Claim theorems -/

/-- **C1.** For every input string, `identifyMessageType` returns the tag
determined by its prefix (each of the 14 prefix/tag pairs of
`fsdPrefixTags`), returns `"UNKNOWN"` exactly when none of the 14 prefixes
matches, and agrees everywhere with testing the prefixes in the spec's
stated priority order (`identifyTypeSpecOrder`) — in particular a string
starting with `#AP` is classified `AUTH_PILOT`, never `AUTH_ADD` or
`AUTH_DELETE`, and one starting with `@S:` is classified `POSITION_SLOW`,
never `CONTROLLER_POSITION`. -/
theorem c1_type_identification (m : List Char) :
    identifyMessageType m = identifyTypeSpecOrder m ∧
    (∀ pt ∈ fsdPrefixTags, List.isPrefixOf pt.1 m = true → identifyMessageType m = pt.2) ∧
    (identifyMessageType m = "UNKNOWN" ↔
      ∀ pt ∈ fsdPrefixTags, List.isPrefixOf pt.1 m = false) := by
  constructor
  · by_cases hex : ∀ pt ∈ fsdPrefixTags, List.isPrefixOf pt.1 m = false
    · exact (identify_all_false m hex).1.trans (identify_all_false m hex).2.symm
    · push_neg at hex
      obtain ⟨pt, hpt, hne⟩ := hex
      have htrue : List.isPrefixOf pt.1 m = true := by
        revert hne; cases List.isPrefixOf pt.1 m <;> simp
      exact (identify_tag pt hpt m htrue).1.trans (identify_tag pt hpt m htrue).2.symm
  constructor
  · exact fun pt hpt h => (identify_tag pt hpt m h).1
  · constructor
    · intro hu pt hpt
      by_contra hne
      have htrue : List.isPrefixOf pt.1 m = true := by
        revert hne; cases List.isPrefixOf pt.1 m <;> simp
      have htag := (identify_tag pt hpt m htrue).1
      rw [htag] at hu
      fin_cases hpt <;> simp_all
    · intro hall
      exact (identify_all_false m hall).1

/-- Witness for **C1** at a concrete input: `#APUAL1:server:123` is
classified `AUTH_PILOT` (not `AUTH_ADD`/`AUTH_DELETE`). -/
theorem c1_type_identification_witness :
    List.isPrefixOf ['#', 'A', 'P'] "#APUAL1:server:123".data = true ∧
    identifyMessageType "#APUAL1:server:123".data = "AUTH_PILOT" :=
  ⟨by decide, (c1_type_identification "#APUAL1:server:123".data).2.1
    (['#', 'A', 'P'], "AUTH_PILOT") (by decide) (by decide)⟩

/-- **C2.** For fragments `a` and `b`, each with a non-whitespace character
and neither containing the escaped line-ending marker, parsing
`a ++ marker ++ b` yields a `BATCHED` result whose payload counts and lists
exactly the two per-fragment decodings in order, each sub-result keeping its
own raw text and its own identified type. -/
theorem c2_batching (now : Nat) (a b : List Char)
    (hca : containsMarker a = false) (hcb : containsMarker b = false)
    (hwa : hasNonWs a = true) (hwb : hasNonWs b = true) :
    (parse now (a ++ marker ++ b)).type = "BATCHED" ∧
    (parse now (a ++ marker ++ b)).parsed =
      some (.batched [decodeSub a, decodeSub b] 2) ∧
    (decodeSub a).raw = a ∧ (decodeSub a).type = identifyMessageType a ∧
    (decodeSub b).raw = b ∧ (decodeSub b).type = identifyMessageType b := by
  have hsplit : splitMarker (a ++ marker ++ b) = [a, b] := by
    rw [List.append_assoc, splitMarker_append a b hca, splitMarker_of_not_contains hcb]
  unfold parse
  rw [hsplit]
  simp [List.filter, hwa, hwb, decodeSub]

/-- Witness for **C2**: a position fragment and a text-message fragment
joined by the marker decode to a 2-element batch in order. -/
theorem c2_batching_witness :
    (parse 0 ("@Sx".data ++ marker ++ "#TMa:b:c".data)).type = "BATCHED" ∧
    (parse 0 ("@Sx".data ++ marker ++ "#TMa:b:c".data)).parsed =
      some (.batched [decodeSub "@Sx".data, decodeSub "#TMa:b:c".data] 2) := by
  have h := c2_batching 0 "@Sx".data "#TMa:b:c".data (by decide) (by decide)
    (by decide) (by decide)
  exact ⟨h.1, h.2.1⟩

theorem hasNonWs_of_isPrefixOf {p m : List Char} (h : List.isPrefixOf p m = true)
    (c : Char) (hc : c ∈ p) (hcw : jsWhitespace c = false) : hasNonWs m = true := by
  obtain ⟨t, rfl⟩ := exists_append_of_isPrefixOf h
  simp only [hasNonWs, List.any_append, Bool.or_eq_true]
  exact Or.inl (List.any_eq_true.mpr ⟨c, hc, by simp [hcw]⟩)

theorem parsePosition_none_iff (m : List Char) :
    parsePosition m = none ↔ (splitMessage m).length < 10 := by
  by_cases h : (splitMessage m).length < 10 <;> simp [parsePosition, h]

theorem parseClientQuery_none_iff (m : List Char) :
    parseClientQuery m = none ↔ (splitMessage m).length < 4 := by
  by_cases h : (splitMessage m).length < 4 <;> simp [parseClientQuery, h]

theorem parseTextMessage_none_iff (m : List Char) :
    parseTextMessage m = none ↔ (splitMessage m).length < 3 := by
  by_cases h : (splitMessage m).length < 3 <;> simp [parseTextMessage, h]

theorem parseControllerPosition_none_iff (m : List Char) :
    parseControllerPosition m = none ↔ (splitMessage m).length < 8 := by
  by_cases h : (splitMessage m).length < 8 <;> simp [parseControllerPosition, h]

theorem parseAuthPilot_none_iff (m : List Char) :
    parseAuthPilot m = none ↔ (splitMessage m).length < 7 := by
  by_cases h : (splitMessage m).length < 7 <;> simp [parseAuthPilot, h]

theorem parseStationPosition_none_iff (m : List Char) :
    parseStationPosition m = none ↔ (splitMessage m).length < 7 := by
  by_cases h : (splitMessage m).length < 7 <;> simp [parseStationPosition, h]

/-- On a marker-free line whose identified type dispatches to a parser with
a pure arity threshold, `parse` keeps the type and fails exactly below the
threshold. -/
theorem parse_arity_iff (now : Nat) (m : List Char) (hm : containsMarker m = false)
    (hws : hasNonWs m = true) (tag : String) (hty : identifyMessageType m = tag)
    (f : List Char → Option SingleFields) (hdec : decodeByType tag m = f m)
    (k : Nat) (hf : ∀ x, f x = none ↔ (splitMessage x).length < k) :
    (parse now m).type = tag ∧
    ((parse now m).parsed = none ↔ (splitMessage m).length < k) := by
  rw [parse_single now m hm hws, hty]
  refine ⟨rfl, ?_⟩
  simp [hdec, hf m, Option.map_eq_none']

/-- **C3.** For each fixed-layout message type — position `@S:`/`@N:`
(minimum 10 colon-fields), `$CQ` (4), `#TM` (3), `%` (8), `#AP` (7), `#ST`
(7) — decoding a marker-free line of that type yields `parsed = none`
exactly when the line has fewer colon-fields than the minimum, while the
result's type is still the correctly identified tag (never `"UNKNOWN"`);
with at least the minimum the decoded fields are non-null. -/
theorem c3_min_fields (now : Nat) (m : List Char) (hm : containsMarker m = false) :
    (List.isPrefixOf ['@', 'S', ':'] m = true →
      (parse now m).type = "POSITION_SLOW" ∧
      ((parse now m).parsed = none ↔ (splitMessage m).length < 10)) ∧
    (List.isPrefixOf ['@', 'N', ':'] m = true →
      (parse now m).type = "POSITION_FAST" ∧
      ((parse now m).parsed = none ↔ (splitMessage m).length < 10)) ∧
    (List.isPrefixOf ['$', 'C', 'Q'] m = true →
      (parse now m).type = "CLIENT_QUERY" ∧
      ((parse now m).parsed = none ↔ (splitMessage m).length < 4)) ∧
    (List.isPrefixOf ['#', 'T', 'M'] m = true →
      (parse now m).type = "TEXT_MESSAGE" ∧
      ((parse now m).parsed = none ↔ (splitMessage m).length < 3)) ∧
    (List.isPrefixOf ['%'] m = true →
      (parse now m).type = "CONTROLLER_POSITION" ∧
      ((parse now m).parsed = none ↔ (splitMessage m).length < 8)) ∧
    (List.isPrefixOf ['#', 'A', 'P'] m = true →
      (parse now m).type = "AUTH_PILOT" ∧
      ((parse now m).parsed = none ↔ (splitMessage m).length < 7)) ∧
    (List.isPrefixOf ['#', 'S', 'T'] m = true →
      (parse now m).type = "POSITION_TRANSMISSION" ∧
      ((parse now m).parsed = none ↔ (splitMessage m).length < 7)) := by
  refine ⟨fun h => ?_, fun h => ?_, fun h => ?_, fun h => ?_, fun h => ?_,
    fun h => ?_, fun h => ?_⟩
  · have hty := (identify_tag (['@', 'S', ':'], "POSITION_SLOW")
      (by simp [fsdPrefixTags]) m h).1
    exact parse_arity_iff now m hm (hasNonWs_of_isPrefixOf h '@' (by decide) (by decide))
      "POSITION_SLOW" hty parsePosition rfl 10 parsePosition_none_iff
  · have hty := (identify_tag (['@', 'N', ':'], "POSITION_FAST")
      (by simp [fsdPrefixTags]) m h).1
    exact parse_arity_iff now m hm (hasNonWs_of_isPrefixOf h '@' (by decide) (by decide))
      "POSITION_FAST" hty parsePosition rfl 10 parsePosition_none_iff
  · have hty := (identify_tag (['$', 'C', 'Q'], "CLIENT_QUERY")
      (by simp [fsdPrefixTags]) m h).1
    exact parse_arity_iff now m hm (hasNonWs_of_isPrefixOf h '$' (by decide) (by decide))
      "CLIENT_QUERY" hty parseClientQuery rfl 4 parseClientQuery_none_iff
  · have hty := (identify_tag (['#', 'T', 'M'], "TEXT_MESSAGE")
      (by simp [fsdPrefixTags]) m h).1
    exact parse_arity_iff now m hm (hasNonWs_of_isPrefixOf h '#' (by decide) (by decide))
      "TEXT_MESSAGE" hty parseTextMessage rfl 3 parseTextMessage_none_iff
  · have hty := (identify_tag (['%'], "CONTROLLER_POSITION")
      (by simp [fsdPrefixTags]) m h).1
    exact parse_arity_iff now m hm (hasNonWs_of_isPrefixOf h '%' (by decide) (by decide))
      "CONTROLLER_POSITION" hty parseControllerPosition rfl 8
      parseControllerPosition_none_iff
  · have hty := (identify_tag (['#', 'A', 'P'], "AUTH_PILOT")
      (by simp [fsdPrefixTags]) m h).1
    exact parse_arity_iff now m hm (hasNonWs_of_isPrefixOf h '#' (by decide) (by decide))
      "AUTH_PILOT" hty parseAuthPilot rfl 7 parseAuthPilot_none_iff
  · have hty := (identify_tag (['#', 'S', 'T'], "POSITION_TRANSMISSION")
      (by simp [fsdPrefixTags]) m h).1
    exact parse_arity_iff now m hm (hasNonWs_of_isPrefixOf h '#' (by decide) (by decide))
      "POSITION_TRANSMISSION" hty parseStationPosition rfl 7
      parseStationPosition_none_iff

/-- Witness for **C3**: a 3-field `@S:` line keeps its type but decodes to
null fields; the spec's full 10-field `@N:` example decodes to non-null
fields. -/
theorem c3_min_fields_witness :
    (parse 0 "@S:AB:1200".data).type = "POSITION_SLOW" ∧
    (parse 0 "@S:AB:1200".data).parsed = none ∧
    (parse 0 "@N:UAL123:1200:1:40.7128:-74.0060:35000:450:0:0".data).parsed ≠ none := by
  have h1 := (c3_min_fields 0 "@S:AB:1200".data rfl).1 (by decide)
  have h2 := ((c3_min_fields 0
    "@N:UAL123:1200:1:40.7128:-74.0060:35000:450:0:0".data rfl).2.1 (by decide)).2
  exact ⟨h1.1, h1.2.mpr (by decide), fun heq => absurd (h2.mp heq) (by decide)⟩

/-- Every input is identified as one of the fifteen type tags. -/
theorem identify_cases (m : List Char) :
    identifyMessageType m = "POSITION_SLOW" ∨ identifyMessageType m = "POSITION_FAST" ∨
    identifyMessageType m = "FLIGHT_PLAN" ∨ identifyMessageType m = "CLIENT_QUERY" ∨
    identifyMessageType m = "TEXT_MESSAGE" ∨ identifyMessageType m = "PILOT_CLIENT" ∨
    identifyMessageType m = "AUTH_PILOT" ∨ identifyMessageType m = "POSITION_TRANSMISSION" ∨
    identifyMessageType m = "CONTROLLER_POSITION" ∨ identifyMessageType m = "CLIENT_ID" ∨
    identifyMessageType m = "CLIENT_RESPONSE" ∨ identifyMessageType m = "SERVER_RESPONSE" ∨
    identifyMessageType m = "AUTH_ADD" ∨ identifyMessageType m = "AUTH_DELETE" ∨
    identifyMessageType m = "UNKNOWN" := by
  by_cases hex : ∀ pt ∈ fsdPrefixTags, List.isPrefixOf pt.1 m = false
  · exact Or.inr (Or.inr (Or.inr (Or.inr (Or.inr (Or.inr (Or.inr (Or.inr (Or.inr
      (Or.inr (Or.inr (Or.inr (Or.inr (Or.inr (identify_all_false m hex).1)))))))))))))
  · push_neg at hex
    obtain ⟨pt, hpt, hne⟩ := hex
    have htrue : List.isPrefixOf pt.1 m = true := by
      revert hne; cases List.isPrefixOf pt.1 m <;> simp
    have htag := (identify_tag pt hpt m htrue).1
    fin_cases hpt <;> simp_all


/-- **C4 (amended).** For every marker-free, non-blank single line, the
decoded result's type is a non-empty tag, and its fields are non-null
**exactly when** the line's identified type is one of the seven decoded
layouts (`@S:`/`@N:`, `$FP`, `$CQ`, `#TM`, `%`, `#AP`, `#ST`) **and** the
line passes that type's minimum-field check (`arityOk`).  The original claim
fails because for the identified types without a decoder case
(`PILOT_CLIENT`, `CLIENT_ID`, `CLIENT_RESPONSE`, `SERVER_RESPONSE`,
`AUTH_ADD`, `AUTH_DELETE`, `UNKNOWN`) the fields are always null even though
no minimum-field-count check failed. -/
theorem c4_invariant_amended (now : Nat) (m : List Char) (hm : containsMarker m = false)
    (hws : hasNonWs m = true) :
    (parse now m).type ≠ "" ∧ (parse now m).parsed.isSome = arityOk m := by
  rw [parse_single now m hm hws]
  rcases identify_cases m with h | h | h | h | h | h | h | h | h | h | h | h | h | h | h
  · rw [h]
    refine ⟨by simp, ?_⟩
    simp only [arityOk, h, decodeByType, parsePosition]
    by_cases hl : (splitMessage m).length < 10 <;> simp [hl] <;> omega
  · rw [h]
    refine ⟨by simp, ?_⟩
    simp only [arityOk, h, decodeByType, parsePosition]
    by_cases hl : (splitMessage m).length < 10 <;> simp [hl] <;> omega
  · rw [h]
    refine ⟨by simp, ?_⟩
    simp only [arityOk, h, decodeByType, parseFlightPlan]
    by_cases hfp : (m.drop 3).any (fun c => c = ':') = true <;> simp [hfp]
  · rw [h]
    refine ⟨by simp, ?_⟩
    simp only [arityOk, h, decodeByType, parseClientQuery]
    by_cases hl : (splitMessage m).length < 4 <;> simp [hl] <;> omega
  · rw [h]
    refine ⟨by simp, ?_⟩
    simp only [arityOk, h, decodeByType, parseTextMessage]
    by_cases hl : (splitMessage m).length < 3 <;> simp [hl] <;> omega
  · rw [h]
    refine ⟨by simp, ?_⟩
    simp [arityOk, h, decodeByType]
  · rw [h]
    refine ⟨by simp, ?_⟩
    simp only [arityOk, h, decodeByType, parseAuthPilot]
    by_cases hl : (splitMessage m).length < 7 <;> simp [hl] <;> omega
  · rw [h]
    refine ⟨by simp, ?_⟩
    simp only [arityOk, h, decodeByType, parseStationPosition]
    by_cases hl : (splitMessage m).length < 7 <;> simp [hl] <;> omega
  · rw [h]
    refine ⟨by simp, ?_⟩
    simp only [arityOk, h, decodeByType, parseControllerPosition]
    by_cases hl : (splitMessage m).length < 8 <;> simp [hl] <;> omega
  · rw [h]
    refine ⟨by simp, ?_⟩
    simp [arityOk, h, decodeByType]
  · rw [h]
    refine ⟨by simp, ?_⟩
    simp [arityOk, h, decodeByType]
  · rw [h]
    refine ⟨by simp, ?_⟩
    simp [arityOk, h, decodeByType]
  · rw [h]
    refine ⟨by simp, ?_⟩
    simp [arityOk, h, decodeByType]
  · rw [h]
    refine ⟨by simp, ?_⟩
    simp [arityOk, h, decodeByType]
  · rw [h]
    refine ⟨by simp, ?_⟩
    simp [arityOk, h, decodeByType]

/-- Counterexample to **C4** as stated: `"#PCx"` has an identified type
(`PILOT_CLIENT`) and fails no minimum-field-count check (there is none for
`#PC`), yet its decoded fields are null. -/
theorem c4_invariant_counterexample :
    (parse 0 "#PCx".data).type = "PILOT_CLIENT" ∧
    (parse 0 "#PCx".data).parsed = none :=
  ⟨by decide, rfl⟩

/-- Witness for **C4 (amended)** at the concrete line of the
counterexample. -/
theorem c4_invariant_amended_witness :
    (parse 0 "#PCx".data).type ≠ "" ∧
    (parse 0 "#PCx".data).parsed.isSome = arityOk "#PCx".data :=
  c4_invariant_amended 0 "#PCx".data rfl (by decide)

/-- **C5.** For every string input, `parse` terminates normally and returns
a record carrying all five components — type, raw, parsed fields,
human-readable summary and timestamp (`parse` is a total Lean function, so
the JS contract "never raises for malformed input, only degrades to null
fields" holds by construction; `raw` always echoes the input and
`timestamp` the supplied clock) — and the numeric field helpers return the
caller-supplied default (`0` when none is given) whenever integer/float
conversion fails, never raising. -/
theorem c5_totality (now : Nat) (m : List Char) :
    (parse now m).raw = m ∧ (parse now m).timestamp = now ∧
    (∀ v (d : Int), jsParseInt v = none → parseIntField v d = d) ∧
    (∀ v (d : Rat), jsParseFloat v = none → parseFloatField v d = d) := by
  refine ⟨?_, ?_, ?_, ?_⟩
  · unfold parse; dsimp only; split <;> rfl
  · unfold parse; dsimp only; split <;> rfl
  · intro v d hv; simp [parseIntField, hv]
  · intro v d hv; simp [parseFloatField, hv]

/-- Witness for **C5** on a line matching no prefix and on two
non-numeric fields. -/
theorem c5_totality_witness :
    (parse 7 "no such prefix".data).raw = "no such prefix".data ∧
    parseIntField "abc".data 5 = 5 ∧
    parseFloatField "x1".data = 0 :=
  ⟨(c5_totality 7 "no such prefix".data).1,
   (c5_totality 7 "no such prefix".data).2.2.1 "abc".data 5 rfl,
   (c5_totality 7 "no such prefix".data).2.2.2 "x1".data 0 rfl⟩

theorem consHead_getD (c : Char) (l : List (List Char)) :
    (consHead c l).getD 0 [] = c :: l.getD 0 [] := by
  cases l <;> rfl

/-- The first colon-field of a message is the text before its first
colon. -/
theorem splitMessage_head (s : List Char) :
    (splitMessage s).getD 0 [] = s.takeWhile (fun c => c != ':') := by
  induction s with
  | nil => rfl
  | cons c rest ih =>
    by_cases hc : c = ':'
    · subst hc; simp [splitMessage]
    · rw [splitMessage, if_neg hc, consHead_getD, ih, List.takeWhile_cons]
      simp [hc]

/-- **C6.** For every marker-free `$CQ` line with at least 4 colon-fields,
the decoder returns callsign = the text between the 3-character prefix and
the first colon, server = the second field, queryType = the third field,
and data = the remaining fields rejoined with colons; the embedded-JSON
component is exactly `jsonParse data`, so it is populated if and only if
`data` parses as valid JSON, and a failed parse leaves the data as plain
text without aborting the outer `parse` (a total function). -/
theorem c6_client_query (now : Nat) (m : List Char) (hm : containsMarker m = false)
    (hp : List.isPrefixOf ['$', 'C', 'Q'] m = true)
    (hlen : 4 ≤ (splitMessage m).length) :
    (parse now m).type = "CLIENT_QUERY" ∧
    (parse now m).parsed = some (.single (.clientQuery
      (((splitMessage m).getD 0 []).drop 3)
      ((splitMessage m).getD 1 [])
      ((splitMessage m).getD 2 [])
      (joinColon ((splitMessage m).drop 3))
      (jsonParse (joinColon ((splitMessage m).drop 3))))) ∧
    (splitMessage m).getD 0 [] = m.takeWhile (fun c => c != ':') := by
  have hws := hasNonWs_of_isPrefixOf hp '$' (by decide) (by decide)
  have hty := (identify_tag (['$', 'C', 'Q'], "CLIENT_QUERY")
    (by simp [fsdPrefixTags]) m hp).1
  rw [parse_single now m hm hws, hty]
  refine ⟨rfl, ?_, splitMessage_head m⟩
  simp only [decodeByType, parseClientQuery,
    if_neg (by omega : ¬(splitMessage m).length < 4)]
  rfl

/-- Witness for **C6** at the spec's example `$CQUAL1:@94836:ACC:not-json`:
`data = "not-json"`, no embedded-JSON field populated. -/
theorem c6_client_query_witness :
    (parse 0 "$CQUAL1:@94836:ACC:not-json".data).type = "CLIENT_QUERY" ∧
    (parse 0 "$CQUAL1:@94836:ACC:not-json".data).parsed =
      some (.single (.clientQuery "UAL1".data "@94836".data "ACC".data
        "not-json".data none)) := by
  have h := c6_client_query 0 "$CQUAL1:@94836:ACC:not-json".data rfl (by decide)
    (by decide)
  refine ⟨h.1, ?_⟩
  rw [h.2.1]
  rfl

/-! ### C7 and C8: the distribution bus -/

theorem lookupCount_bumpCount_self {α : Type _} [DecidableEq α] [BEq α] [LawfulBEq α]
    (l : List (α × Nat)) (k : α) :
    lookupCount (bumpCount l k) k = lookupCount l k + 1 := by
  induction l with
  | nil => simp [bumpCount, lookupCount, List.lookup]
  | cons p rest ih =>
    obtain ⟨a, n⟩ := p
    by_cases hak : a = k
    · subst hak; simp [bumpCount, lookupCount, List.lookup]
    · have hba : (k == a) = false := beq_eq_false_iff_ne.mpr (Ne.symm hak)
      simp only [bumpCount, if_neg hak]
      simpa [lookupCount, List.lookup, hba] using ih

theorem lookupCount_bumpCount_ne {α : Type _} [DecidableEq α] [BEq α] [LawfulBEq α]
    (l : List (α × Nat)) (k k' : α) (h : k' ≠ k) :
    lookupCount (bumpCount l k) k' = lookupCount l k' := by
  have hbk : (k' == k) = false := beq_eq_false_iff_ne.mpr h
  induction l with
  | nil => simp [bumpCount, lookupCount, List.lookup, hbk]
  | cons p rest ih =>
    obtain ⟨a, n⟩ := p
    by_cases hak : a = k
    · subst hak; simp [bumpCount, lookupCount, List.lookup, hbk]
    · simp only [bumpCount, if_neg hak]
      by_cases hk' : k' = a
      · subst hk'; simp [lookupCount, List.lookup]
      · have hba : (k' == a) = false := beq_eq_false_iff_ne.mpr hk'
        simpa [lookupCount, List.lookup, hba] using ih

/-- The sink loop updates each entry in place according to its enabled flag
and its handler's outcome on the message. -/
theorem runOutputs_lookup (m : BusMessage) (l : List (String × OutputEntry))
    (name : String) :
    (runOutputs m l).1.lookup name = (l.lookup name).map (fun o =>
      if o.enabled then
        match o.handler m with
        | .ok _ => { o with messageCount := o.messageCount + 1 }
        | .error _ => { o with errorCount := o.errorCount + 1 }
      else o) := by
  induction l with
  | nil => simp [runOutputs]
  | cons p rest ih =>
    obtain ⟨n', o⟩ := p
    by_cases ho : o.enabled = true
    · cases hh : o.handler m with
      | ok u =>
        cases u
        by_cases hn : name = n'
        · subst hn; simp [runOutputs, ho, hh, List.lookup]
        · have hb : (name == n') = false := beq_eq_false_iff_ne.mpr hn
          simp [runOutputs, ho, hh, List.lookup, hb, ih]
      | error e =>
        by_cases hn : name = n'
        · subst hn; simp [runOutputs, ho, hh, List.lookup]
        · have hb : (name == n') = false := beq_eq_false_iff_ne.mpr hn
          simp [runOutputs, ho, hh, List.lookup, hb, ih]
    · have ho' : o.enabled = false := by revert ho; cases o.enabled <;> simp
      by_cases hn : name = n'
      · subst hn; simp [runOutputs, ho', List.lookup]
      · have hb : (name == n') = false := beq_eq_false_iff_ne.mpr hn
        simp [runOutputs, ho', List.lookup, hb, ih]

/-- A failing enabled sink contributes its error event. -/
theorem runOutputs_err_of_lookup (m : BusMessage) (l : List (String × OutputEntry))
    {name : String} {o : OutputEntry} {e : String} (hl : l.lookup name = some o)
    (he : o.enabled = true) (hh : o.handler m = .error e) :
    BusEvent.outputError name e m ∈ (runOutputs m l).2 := by
  induction l with
  | nil => simp [List.lookup] at hl
  | cons p rest ih =>
    obtain ⟨n', o'⟩ := p
    by_cases hn : name = n'
    · subst hn
      simp only [List.lookup, beq_self_eq_true, if_pos] at hl
      cases hl
      simp [runOutputs, he, hh]
    · have hb : (name == n') = false := beq_eq_false_iff_ne.mpr hn
      have hl' : rest.lookup name = some o := by
        simpa [List.lookup, hb] using hl
      have := ih hl'
      by_cases ho' : o'.enabled = true
      · cases hh' : o'.handler m with
        | ok u => cases u; simp [runOutputs, ho', hh']; exact this
        | error e' => simp [runOutputs, ho', hh']; right; exact this
      · have : o'.enabled = false := by revert ho'; cases o'.enabled <;> simp
        simp [runOutputs, this]
        exact ih hl'

/-- Error events carry the name of a registered sink. -/
theorem runOutputs_err_name (m : BusMessage) (l : List (String × OutputEntry))
    {name e : String}
    (hmem : BusEvent.outputError name e m ∈ (runOutputs m l).2) :
    name ∈ l.map Prod.fst := by
  induction l with
  | nil => simp [runOutputs] at hmem
  | cons p rest ih =>
    obtain ⟨n', o'⟩ := p
    by_cases ho' : o'.enabled = true
    · cases hh' : o'.handler m with
      | ok u =>
        cases u
        simp only [runOutputs, ho', hh'] at hmem
        exact List.mem_cons_of_mem _ (ih hmem)
      | error e' =>
        simp only [runOutputs, ho', hh'] at hmem
        rcases List.mem_cons.mp hmem with heq | hmem'
        · injection heq with h1 h2 h3
          subst h1
          exact List.mem_cons_self _ _
        · exact List.mem_cons_of_mem _ (ih hmem')
    · have hof : o'.enabled = false := by revert ho'; cases o'.enabled <;> simp
      simp only [runOutputs, hof] at hmem
      exact List.mem_cons_of_mem _ (ih hmem)

/-- A disabled sink is never invoked: no error event carries its name. -/
theorem runOutputs_err_not_of_disabled (m : BusMessage) (l : List (String × OutputEntry))
    {name : String} {o : OutputEntry} (hnd : (l.map Prod.fst).Nodup)
    (hl : l.lookup name = some o) (hdis : o.enabled = false) (e : String) :
    BusEvent.outputError name e m ∉ (runOutputs m l).2 := by
  induction l with
  | nil => simp [runOutputs]
  | cons p rest ih =>
    obtain ⟨n', o'⟩ := p
    simp only [List.map_cons, List.nodup_cons] at hnd
    by_cases hn : name = n'
    · subst hn
      have hoo : o' = o := by simpa [List.lookup] using hl
      subst hoo
      intro hmem
      simp only [runOutputs, hdis] at hmem
      exact hnd.1 (runOutputs_err_name m rest hmem)
    · have hb : (name == n') = false := beq_eq_false_iff_ne.mpr hn
      have hl' : rest.lookup name = some o := by simpa [List.lookup, hb] using hl
      intro hmem
      by_cases ho' : o'.enabled = true
      · cases hh' : o'.handler m with
        | ok u =>
          cases u
          simp only [runOutputs, ho', hh'] at hmem
          exact ih hnd.2 hl' hmem
        | error e'' =>
          simp only [runOutputs, ho', hh'] at hmem
          rcases List.mem_cons.mp hmem with heq | hmem'
          · injection heq with h1 h2 h3
            exact hn h1
          · exact ih hnd.2 hl' hmem'
      · have hof : o'.enabled = false := by revert ho'; cases o'.enabled <;> simp
        simp only [runOutputs, hof] at hmem
        exact ih hnd.2 hl' hmem

/-- Counterexample to **C7** as stated: a message whose channel identifier
is `0` (falsy in JS, so `if (message.port)` skips the update) is dispatched
— `totalMessages` goes up — yet no per-channel counter is created or
incremented. -/
theorem c7_dispatch_counterexample :
    (processMessage ⟨0, [], [], 0, []⟩ ⟨some "TEXT_MESSAGE", some 0⟩).1.totalMessages = 1 ∧
    (processMessage ⟨0, [], [], 0, []⟩ ⟨some "TEXT_MESSAGE", some 0⟩).1.messagesByPort = [] :=
  ⟨rfl, rfl⟩

/-- **C7 (amended).** `dispatch` increments `totalMessages` by exactly 1,
increments the per-type counter for the message's type (`"UNKNOWN"` when
the type is absent or empty) by exactly 1 leaving other type counters
unchanged, increments the per-channel counter by exactly 1 **when the
channel identifier is present and nonzero (JS-truthy)** — a missing or zero
channel id leaves the per-channel counters untouched — and emits the
generic any-message notification and the type-specific notification ahead
of everything produced by the sink invocations. -/
theorem c7_dispatch_amended (s : PipelineState) (m : BusMessage) :
    (processMessage s m).1.totalMessages = s.totalMessages + 1 ∧
    lookupCount (processMessage s m).1.messagesByType (jsOrString m.type "UNKNOWN") =
      lookupCount s.messagesByType (jsOrString m.type "UNKNOWN") + 1 ∧
    (∀ t, t ≠ jsOrString m.type "UNKNOWN" →
      lookupCount (processMessage s m).1.messagesByType t =
        lookupCount s.messagesByType t) ∧
    (∀ p, m.port = some p → p ≠ 0 →
      lookupCount (processMessage s m).1.messagesByPort p =
        lookupCount s.messagesByPort p + 1) ∧
    (m.port = none ∨ m.port = some 0 →
      (processMessage s m).1.messagesByPort = s.messagesByPort) ∧
    ∃ evs, (processMessage s m).2 =
      BusEvent.message m ::
        BusEvent.typed (jsToLower (jsOrString m.type "UNKNOWN")) m :: evs := by
  refine ⟨?_, ?_, ?_, ?_, ?_, ?_⟩
  · simp [processMessage]
  · simp only [processMessage]
    exact lookupCount_bumpCount_self _ _
  · intro t ht
    simp only [processMessage]
    exact lookupCount_bumpCount_ne _ _ t ht
  · intro p hp hp0
    simp only [processMessage, hp]
    rw [if_pos hp0]
    exact lookupCount_bumpCount_self _ _
  · rintro (hp | hp) <;> simp [processMessage, hp]
  · exact ⟨_, rfl⟩

/-- Witness for **C7 (amended)**: dispatching a `TEXT_MESSAGE` from channel
6809 takes `totalMessages` from 5 to 6 and the two counters from 2 to 3 and
7 to 8. -/
theorem c7_dispatch_amended_witness :
    (processMessage ⟨5, [("TEXT_MESSAGE", 2)], [(6809, 7)], 0, []⟩
      demoBusMessage).1.totalMessages = 6 ∧
    lookupCount (processMessage ⟨5, [("TEXT_MESSAGE", 2)], [(6809, 7)], 0, []⟩
      demoBusMessage).1.messagesByType "TEXT_MESSAGE" = 3 ∧
    lookupCount (processMessage ⟨5, [("TEXT_MESSAGE", 2)], [(6809, 7)], 0, []⟩
      demoBusMessage).1.messagesByPort 6809 = 8 := by
  have h := c7_dispatch_amended ⟨5, [("TEXT_MESSAGE", 2)], [(6809, 7)], 0, []⟩
    demoBusMessage
  exact ⟨h.1, h.2.1, h.2.2.2.1 6809 rfl (by decide)⟩

/-- **C8.** For every bus state with distinct sink names and every message:
each enabled sink whose handler accepts has its accepted-message counter
incremented by 1; each enabled sink whose handler fails has its error
counter incremented by 1 and a sink-scoped error notification carrying the
sink name, the error and the offending message is emitted; the updates are
per-sink and simultaneous (one sink's failure never prevents another's
invocation or counter update); disabled sinks keep their counters and emit
nothing; and `processMessage` settles every enabled handler's outcome into
the state it returns, never raising (it is a total function). -/
theorem c8_sink_isolation (s : PipelineState) (m : BusMessage) (name : String)
    (o : OutputEntry) (hnd : (s.outputs.map Prod.fst).Nodup)
    (ho : s.outputs.lookup name = some o) :
    (o.enabled = true → o.handler m = .ok () →
      getOutputStatus (processMessage s m).1 name =
        some ⟨name, true, o.messageCount + 1, o.errorCount⟩) ∧
    (∀ e, o.enabled = true → o.handler m = .error e →
      getOutputStatus (processMessage s m).1 name =
        some ⟨name, true, o.messageCount, o.errorCount + 1⟩ ∧
      BusEvent.outputError name e m ∈ (processMessage s m).2) ∧
    (o.enabled = false →
      getOutputStatus (processMessage s m).1 name =
        some ⟨name, false, o.messageCount, o.errorCount⟩ ∧
      ∀ e, BusEvent.outputError name e m ∉ (processMessage s m).2) := by
  have houts : (processMessage s m).1.outputs = (runOutputs m s.outputs).1 := by
    simp [processMessage]
  have hevs : (processMessage s m).2 =
      BusEvent.message m ::
        BusEvent.typed (jsToLower (jsOrString m.type "UNKNOWN")) m ::
        (runOutputs m s.outputs).2 := by
    simp [processMessage]
  refine ⟨?_, ?_, ?_⟩
  · intro he hok
    simp [getOutputStatus, houts, runOutputs_lookup, ho, he, hok]
  · intro e he herr
    refine ⟨?_, ?_⟩
    · simp [getOutputStatus, houts, runOutputs_lookup, ho, he, herr]
    · rw [hevs]
      exact List.mem_cons_of_mem _ (List.mem_cons_of_mem _
        (runOutputs_err_of_lookup m s.outputs ho he herr))
  · intro hd
    refine ⟨?_, ?_⟩
    · simp [getOutputStatus, houts, runOutputs_lookup, ho, hd]
    · intro e hmem
      rw [hevs] at hmem
      rcases List.mem_cons.mp hmem with heq | hmem1
      · simp at heq
      · rcases List.mem_cons.mp hmem1 with heq2 | hmem2
        · simp at heq2
        · exact runOutputs_err_not_of_disabled m s.outputs hnd ho hd e hmem2

/-- Witness for **C8** on a bus with one always-succeeding and one
always-failing sink: both settle, the good sink's accepted count and the
bad sink's error count each rise by 1, and the error event carries the bad
sink's name, its error and the message. -/
theorem c8_sink_isolation_witness :
    getOutputStatus (processMessage demoBusState demoBusMessage).1 "good" =
      some ⟨"good", true, 1, 0⟩ ∧
    getOutputStatus (processMessage demoBusState demoBusMessage).1 "bad" =
      some ⟨"bad", true, 0, 1⟩ ∧
    BusEvent.outputError "bad" "boom" demoBusMessage ∈
      (processMessage demoBusState demoBusMessage).2 := by
  have hg := c8_sink_isolation demoBusState demoBusMessage "good"
    ⟨demoOkSink, true, 0, 0⟩ (by decide) rfl
  have hb := c8_sink_isolation demoBusState demoBusMessage "bad"
    ⟨demoBadSink, true, 0, 0⟩ (by decide) rfl
  exact ⟨hg.1 rfl rfl, (hb.2.1 "boom" rfl rfl).1, (hb.2.1 "boom" rfl rfl).2⟩

/-! ### C9 and C10: capture multiplexer and parser registry -/

theorem lookup_setAssoc_self {α β : Type _} [DecidableEq α] [BEq α] [LawfulBEq α]
    (l : List (α × β)) (k : α) (v : β) : (setAssoc l k v).lookup k = some v := by
  induction l with
  | nil => simp [setAssoc, List.lookup]
  | cons p rest ih =>
    obtain ⟨a, b⟩ := p
    by_cases hak : a = k
    · subst hak; simp [setAssoc, List.lookup]
    · have hb : (k == a) = false := beq_eq_false_iff_ne.mpr (Ne.symm hak)
      simp [setAssoc, if_neg hak, List.lookup, hb, ih]

theorem lookup_updateAssoc_self {α β : Type _} [DecidableEq α] [BEq α] [LawfulBEq α]
    (l : List (α × β)) (k : α) (f : β → β) :
    (updateAssoc l k f).lookup k = (l.lookup k).map f := by
  induction l with
  | nil => simp [updateAssoc, List.lookup]
  | cons p rest ih =>
    obtain ⟨a, b⟩ := p
    by_cases hak : a = k
    · subst hak; simp [updateAssoc, List.lookup]
    · have hb : (k == a) = false := beq_eq_false_iff_ne.mpr (Ne.symm hak)
      simp [updateAssoc, if_neg hak, List.lookup, hb, ih]

theorem lookup_eraseAssoc_ne {α β : Type _} [DecidableEq α] [BEq α] [LawfulBEq α]
    (l : List (α × β)) (k k' : α) (h : k' ≠ k) :
    (eraseAssoc l k).lookup k' = l.lookup k' := by
  induction l with
  | nil => simp [eraseAssoc]
  | cons p rest ih =>
    obtain ⟨a, b⟩ := p
    by_cases hak : a = k
    · subst hak
      have hb : (k' == a) = false := beq_eq_false_iff_ne.mpr h
      simp [eraseAssoc, List.lookup, hb]
    · by_cases hk' : k' = a
      · subst hk'; simp [eraseAssoc, if_neg hak, List.lookup]
      · have hb : (k' == a) = false := beq_eq_false_iff_ne.mpr hk'
        simp [eraseAssoc, if_neg hak, List.lookup, hb, ih]

/-- Counterexample to **C9** as stated: after configuring and starting port
6809 (still configured and enabled), a second `startPort` raises a hard
error (`Capture already running` from the capture source), so "start fails
if and only if the id is not configured or the channel is disabled" is
false. -/
theorem c9_channel_errors_counterexample :
    (addPort demoCap0 demoCapCfg).2 = none ∧
    (startPort demoCap1 6809 5).2 = none ∧
    (demoCap2.captures.lookup 6809).map PortEntry.enabled = some true ∧
    (demoCap2.captures.lookup 6809).isSome = true ∧
    (startPort demoCap2 6809 6).2 = some (.captureAlreadyRunning 6809) := by
  decide

/-- **C9 (amended).** `addPort` raises a hard error if and only if the
channel id is already registered, that error is `DuplicateChannel`, and on
error the multiplexer state is completely unchanged (the check precedes
every mutation); a successful `addPort` registers the channel.  `startPort`
raises a hard error if and only if the id is not configured, the channel is
disabled, **or its capture source is already running**; otherwise it starts
that channel's capture source. -/
theorem c9_channel_errors (s : CaptureManagerState) (cfg : PortConfig) (p now : Nat) :
    ((addPort s cfg).2 ≠ none ↔ (s.captures.lookup cfg.port).isSome = true) ∧
    ((addPort s cfg).2 ≠ none →
      (addPort s cfg).2 = some (.duplicatePort cfg.port) ∧ (addPort s cfg).1 = s) ∧
    ((addPort s cfg).2 = none →
      (addPort s cfg).1.captures.lookup cfg.port =
        some ⟨cfg.parser, cfg.label, cfg.enabled.getD true, false⟩) ∧
    (s.captures.lookup p = none →
      startPort s p now = (s, some (.portNotConfigured p))) ∧
    (∀ entry, s.captures.lookup p = some entry →
      (entry.enabled = false → startPort s p now = (s, some (.portDisabled p))) ∧
      (entry.enabled = true → entry.isCapturing = true →
        startPort s p now = (s, some (.captureAlreadyRunning p))) ∧
      (entry.enabled = true → entry.isCapturing = false →
        (startPort s p now).2 = none ∧
        (startPort s p now).1.captures.lookup p =
          some { entry with isCapturing := true })) := by
  refine ⟨?_, ?_, ?_, ?_, ?_⟩
  · by_cases hc : (s.captures.lookup cfg.port).isSome = true <;> simp [addPort, hc]
  · intro hne
    by_cases hc : (s.captures.lookup cfg.port).isSome = true
    · simp [addPort, hc]
    · simp [addPort, hc] at hne
  · intro hnone
    by_cases hc : (s.captures.lookup cfg.port).isSome = true
    · simp [addPort, hc] at hnone
    · simp [addPort, hc, lookup_setAssoc_self]
  · intro hp
    simp [startPort, hp]
  · intro entry hp
    refine ⟨?_, ?_, ?_⟩
    · intro hd; simp [startPort, hp, hd]
    · intro he hc; simp [startPort, hp, he, hc]
    · intro he hc
      refine ⟨by simp [startPort, hp, he, hc], ?_⟩
      simp [startPort, hp, he, hc, lookup_updateAssoc_self]

/-- Witness for **C9 (amended)**: adding port 6809 twice fails with
`DuplicateChannel` leaving the state unchanged, while starting the
configured, enabled, not-yet-running port succeeds. -/
theorem c9_channel_errors_witness :
    (addPort demoCap1 demoCapCfg).2 = some (.duplicatePort 6809) ∧
    (addPort demoCap1 demoCapCfg).1 = demoCap1 ∧
    (startPort demoCap1 6809 5).2 = none := by
  have h := c9_channel_errors demoCap1 demoCapCfg 6809 5
  have hne : (addPort demoCap1 demoCapCfg).2 ≠ none := h.1.mpr (by decide)
  refine ⟨(h.2.1 hne).1, (h.2.1 hne).2, ?_⟩
  have he := h.2.2.2.2 ⟨some "fsd", some "VATSIM FSD", true, false⟩ rfl
  exact (he.2.2 rfl rfl).1

/-- The instance-cache key `name ++ ":" ++ stringified-config` is always
strictly longer than the bare name, so `unregister`'s
`instances.delete(name)` can never hit it. -/
theorem cacheKey_ne (n c : String) : cacheKey n c ≠ n := by
  intro h
  have hlen := congrArg String.length h
  simp [cacheKey, String.length_append,
    show (":" : String).length = 1 from rfl] at hlen
  omega

/-- **C10.** For every registry, factories `f1`, `f2`, name `n` and
configuration `c` with no instance cached for `(n, c)`: after
`register(n, f1)` and `create(n, c)` yielding the instance built by `f1`,
the sequence `unregister(n); register(n, f2); create(n, c)` returns that
same `f1`-built instance, not a new one from `f2` — `unregister` deletes
only the key equal to the bare name, which never matches a cache key —
while `clearInstances` does empty the cache. -/
theorem c10_registry_cache {Inst : Type} (s : RegistryState Inst) (n c : String)
    (f1 f2 : String → Inst)
    (hcache : s.instances.lookup (cacheKey n c) = none) :
    ∃ s2, create (register s n f1) n c = .ok (f1 c, s2) ∧
      create (register (unregister s2 n) n f2) n c =
        .ok (f1 c, register (unregister s2 n) n f2) ∧
      (clearInstances s2).instances = [] := by
  refine ⟨⟨setAssoc s.parsers n f1, setAssoc s.instances (cacheKey n c) (f1 c)⟩,
    ?_, ?_, rfl⟩
  · simp [create, register, lookup_setAssoc_self, hcache]
  · simp [create, register, unregister, lookup_setAssoc_self,
      lookup_eraseAssoc_ne _ _ _ (cacheKey_ne n c)]

/-- Witness for **C10** from the empty registry with two distinguishable
factories: the second `create` still returns the instance `1` built by the
first factory. -/
theorem c10_registry_cache_witness :
    ∃ s2, create (register (⟨[], []⟩ : RegistryState Nat) "fsd" (fun _ => 1))
        "fsd" "\x7b\x7d" = .ok (1, s2) ∧
      create (register (unregister s2 "fsd") "fsd" (fun _ => 2)) "fsd" "\x7b\x7d" =
        .ok (1, register (unregister s2 "fsd") "fsd" (fun _ => 2)) ∧
      (clearInstances s2).instances = [] :=
  c10_registry_cache ⟨[], []⟩ "fsd" "\x7b\x7d" (fun _ => 1) (fun _ => 2) rfl

end E2M
